import Mathlib

/-!
Verification of the csv cell-decoding engine (`convert.go`, `csv.go`).

Go strings are modelled as lists of characters (`GoStr`); all inputs in the
repository's tests and documentation are such that byte positions and
character positions coincide, so Go's byte-indexed slicing is modelled by
positional list operations.  Go standard-library string primitives used by
the source (`strings.Index`, `strings.Split`, `strings.SplitN`,
`strings.Replace`, `strings.ToLower`, `strconv.ParseInt`,
`strconv.ParseUint`, `strconv.Itoa`) are given executable models below.
-/

abbrev GoStr := List Char

/-- Convert a Lean string literal to the `GoStr` model. -/
def gs (s : String) : GoStr := s.data

/-- The character `{` (written numerically so it can never be mistaken for
interpolation syntax). -/
def braceL : Char := Char.ofNat 123

/-- The character `}`. -/
def braceR : Char := Char.ofNat 125

/-- Model of Go `strings.Index` restricted to a successful result: position of
the leftmost occurrence of `pat` in the scanned string, `none` when Go would
return `-1`.  `strings.Index(s, "")` is `0`, matching the `pat = []` case. -/
def goIndexAux (pat : GoStr) : GoStr → Option Nat
  | [] => if pat = [] then some 0 else none
  | c :: rest =>
    if pat.isPrefixOf (c :: rest) then some 0
    else (goIndexAux pat rest).map (· + 1)

/-- Model of Go `strings.Index` (argument order of the Go call). -/
def goIndex (s pat : GoStr) : Option Nat := goIndexAux pat s

/-- Splitting loop for `strings.Split` with a non-empty separator: cut at the
leftmost occurrence of `sep` and continue on the remainder.  The fuel is an
upper bound on the number of cuts; `goSplit` always supplies enough. -/
def goSplitFuel (sep : GoStr) : Nat → GoStr → List GoStr
  | 0, s => [s]
  | fuel + 1, s =>
    match goIndexAux sep s with
    | none => [s]
    | some i => s.take i :: goSplitFuel sep fuel (s.drop (i + sep.length))

/-- Model of Go `strings.Split`.  An empty separator explodes the string into
single characters (and `Split("", "")` is the empty slice), a non-empty
separator cuts at each non-overlapping leftmost occurrence. -/
def goSplit (s sep : GoStr) : List GoStr :=
  if sep = [] then s.map (fun c => [c])
  else goSplitFuel sep (s.length + 1) s

/-- Model of Go `strings.SplitN(s, sep, 2)` for a non-empty separator: at most
one cut, at the leftmost occurrence. -/
def goSplitN2 (s sep : GoStr) : List GoStr :=
  match goIndexAux sep s with
  | none => [s]
  | some i => [s.take i, s.drop (i + sep.length)]

/-- Model of Go `strings.Replace(s, old, new, 1)`: replace the leftmost
occurrence of `old` (when `old` occurs) by `new`. -/
def goReplace1 (s old new : GoStr) : GoStr :=
  match goIndexAux old s with
  | none => s
  | some i => s.take i ++ new ++ s.drop (i + old.length)

/-- Model of Go `strings.ToLower` (character-wise; the repository only feeds
it ASCII). -/
def goToLower (s : GoStr) : GoStr := s.map Char.toLower

/-- Decimal digit test. -/
def isDigit (c : Char) : Bool := '0' ≤ c && c ≤ '9'

/-- Value of a digit string (most significant first). -/
def digitsToNat (l : GoStr) : Nat :=
  l.foldl (fun acc c => acc * 10 + (c.toNat - ('0').toNat)) 0

/-- Model of Go `strconv.ParseInt(s, 10, 64)`: optional sign, then a
non-empty run of decimal digits, rejecting 64-bit overflow. -/
def goParseInt64 (s : GoStr) : Option Int :=
  let core : GoStr → Bool → Option Int := fun ds neg =>
    if ds = [] ∨ ¬ ds.all isDigit then none
    else
      let n : Nat := digitsToNat ds
      if neg then
        if n ≤ 2 ^ 63 then some (-(n : Int)) else none
      else
        if n < 2 ^ 63 then some (n : Int) else none
  match s with
  | '+' :: rest => core rest false
  | '-' :: rest => core rest true
  | _ => core s false

/-- Model of Go `strconv.ParseUint(s, 10, 64)`: a non-empty run of decimal
digits (no sign allowed), rejecting 64-bit overflow. -/
def goParseUint64 (s : GoStr) : Option Nat :=
  if s = [] ∨ ¬ s.all isDigit then none
  else
    let n := digitsToNat s
    if n < 2 ^ 64 then some n else none

/-- `Atoi` from convert.go: `strconv.Atoi` (64-bit `int`), `0` on any error. -/
def Atoi (s : GoStr) : Int := (goParseInt64 s).getD 0

/-- `Atoi64` from convert.go: `strconv.ParseInt(s, 10, 64)`, `0` on error. -/
def Atoi64 (s : GoStr) : Int := (goParseInt64 s).getD 0

/-- `Atou` from convert.go: `strconv.ParseUint(s, 10, 64)`, `0` on error. -/
def Atou (s : GoStr) : Nat := (goParseUint64 s).getD 0

/-- Model of Go `strconv.Itoa` for the non-negative counters the source feeds
it. -/
def goItoa (n : Nat) : GoStr := Nat.toDigits 10 n

/-- A crude but executable acceptance test for `strconv.ParseFloat`: optional
sign, digits with at most one dot, optional exponent part.  No claim under
verification depends on float values, only on whether the parse succeeds. -/
def goFloatOk (s : GoStr) : Bool :=
  let body : GoStr → Bool := fun t =>
    let mantissa : GoStr → Bool := fun m =>
      match goIndexAux [('.')] m with
      | none => m ≠ [] && m.all isDigit
      | some i =>
        let intPart := m.take i
        let fracPart := m.drop (i + 1)
        (intPart ≠ [] ∨ fracPart ≠ []) && intPart.all isDigit &&
          fracPart.all isDigit
    match goIndexAux [('e')] (goToLower t) with
    | none => mantissa t
    | some i =>
      let ex := t.drop (i + 1)
      let exDigits := match ex with
        | '+' :: r => r
        | '-' :: r => r
        | r => r
      mantissa (t.take i) && exDigits ≠ [] && exDigits.all isDigit
  match s with
  | '+' :: rest => body rest
  | '-' :: rest => body rest
  | _ => body s

/-- `StringPair` from convert.go. -/
structure StringPair where
  Key : GoStr
  Value : GoStr
deriving DecidableEq, Repr

/-- Go `reflect` kinds/types relevant to the source, with nominal struct
types: a struct type is an index into a `StructEnv` giving its field list.
Integer and unsigned widths are collapsed to one kind each (the source treats
all widths through `SetInt`/`SetUint` with the same 64-bit parsers); complex
kinds, never exercised by any claim, are omitted and land in `tOther`. -/
inductive Ty where
  | tInt
  | tUint
  | tFloat32
  | tFloat64
  | tString
  | tBool
  | tStructN (n : Nat)
  | tPtr (t : Ty)
  | tSlice (t : Ty)
  | tMap (k v : Ty)
  | tOther
deriving DecidableEq, Repr

/-- Field lists of the nominal struct types (name, declared type), in
declaration order. -/
abbrev StructEnv := List (List (GoStr × Ty))

/-- Field list of struct type `n`. -/
def structFields (env : StructEnv) (n : Nat) : List (GoStr × Ty) :=
  env.getD n []

/-- Runtime values.  Floats carry the raw token they were parsed from (no
claim inspects float arithmetic).  Maps are kept as insertion-ordered entry
lists; no claim inspects duplicate-key overwriting. -/
inductive Value where
  | vInt (i : Int)
  | vUint (n : Nat)
  | vFloat (token : GoStr)
  | vString (s : GoStr)
  | vBool (b : Bool)
  | vStruct (fields : List (GoStr × Value))
  | vPtr (v : Value)
  | vSlice (elems : List Value)
  | vMap (entries : List (Value × Value))
  | vNil
deriving Repr

/-- `FieldConverter` from csv.go: `func(obj any, columnName, fieldStr string)
any`.  A Go `nil` result is `none`. -/
abbrev FieldConverter := Value → GoStr → GoStr → Option Value

/-- `CsvOption` from csv.go.  The two converter registries are modelled as
association lists (Go maps with `nil` map ≙ empty list); `ignoreColumns` is
never read by the source and is omitted.  The protobuf/json alias flags only
feed the alias-lookup collaborator, which is outside `src/`. -/
structure CsvOption where
  DataBeginRowIndex : Int := 0
  ColumnNameRowIndex : Int := 0
  ObjectDataBeginRowIndex : Int := 0
  SliceSeparator : GoStr := []
  KvSeparator : GoStr := []
  PairSeparator : GoStr := []
  convertersByColumnName : List (GoStr × FieldConverter) := []
  convertersByType : List (Ty × FieldConverter) := []

/-- `DefaultOption` from csv.go. -/
def DefaultOption : CsvOption where
  ColumnNameRowIndex := 0
  DataBeginRowIndex := 1
  SliceSeparator := gs (";")
  KvSeparator := gs ("_")
  PairSeparator := gs ("#")

/-- `GetConverterByColumnName` from csv.go. -/
def GetConverterByColumnName (co : CsvOption) (columnName : GoStr) :
    Option FieldConverter :=
  co.convertersByColumnName.lookup columnName

/-- `GetConverterByType` from csv.go. -/
def GetConverterByType (co : CsvOption) (typ : Ty) : Option FieldConverter :=
  co.convertersByType.lookup typ

/-- `GetConverterByTypePtrOrStruct` from csv.go: exact type first; a plain
struct type falls back to the converter registered for the pointer to it, in
which case `convertToElem` is reported `true`. -/
def GetConverterByTypePtrOrStruct (co : CsvOption) (typ : Ty) :
    Option FieldConverter × Bool :=
  match GetConverterByType co typ with
  | some c => (some c, false)
  | none =>
    match typ with
    | Ty.tStructN n =>
      match GetConverterByType co (Ty.tPtr (Ty.tStructN n)) with
      | some c => (some c, true)
      | none => (none, false)
    | _ => (none, false)

/-- `convertPairString` from convert.go: split the cell by the pair
separator, split each segment by the kv separator into at most two parts, and
append a pair for every segment that yields exactly two parts. -/
def convertPairString (pairs : List StringPair)
    (cellString pairSeparator kvSeparator : GoStr) : List StringPair :=
  (goSplit cellString pairSeparator).foldl
    (fun acc pairString =>
      match goSplitN2 pairString kvSeparator with
      | [k, v] => acc ++ [⟨k, v⟩]
      | _ => acc)
    pairs

/-- `ParsePairString` from convert.go; a `none` option is replaced by
`DefaultOption` before parsing. -/
def ParsePairString (cellString : GoStr) (option : Option CsvOption) :
    List StringPair :=
  let option := option.getD DefaultOption
  convertPairString [] cellString option.PairSeparator option.KvSeparator

/-- Outcome of running a piece of Go code that may `panic`. -/
inductive RunResult (α : Type) where
  | ok (a : α)
  | err (msg : GoStr)
  | panicked
deriving DecidableEq, Repr

/-- One iteration of the `ParseNestString` loop body for a single nested
field name: the emitted pairs (one or none) and the updated working string,
exactly as in convert.go lines 247-265.  The only guard before the slice
`s[beginPos+len(keyword):endPos]` is `endPos > beginPos`, so when the first
`}` of the working string falls strictly inside the keyword occurrence (a
nested field name or the kv separator containing `}`) the slice inverts and
Go panics — modelled as `none`. -/
def parseNestStep (option : CsvOption) (nestFieldName : GoStr) (s : GoStr) :
    Option (List StringPair × GoStr) :=
  let keyword := nestFieldName ++ option.KvSeparator ++ [braceL]
  match goIndex s keyword with
  | none => some ([], s)
  | some beginPos =>
    match goIndex s [braceR] with
    | none => some ([], s)
    | some endPos =>
      if beginPos < endPos then
        if endPos < beginPos + keyword.length then none
        else
          let nestFieldValue :=
            (s.take endPos).drop (beginPos + keyword.length)
          let s' :=
            if endPos < s.length - 2 then
              s.take beginPos ++ s.drop (endPos + 1)
            else
              s.take beginPos
          some ([⟨nestFieldName, nestFieldValue⟩], s')
      else some ([], s)

/-- `ParseNestString` from convert.go: walk the nested field names updating a
working string, then parse the residual string for the remaining top-level
pairs; a slice inversion in any step aborts the whole call with a panic. -/
def ParseNestString (cellString : GoStr) (option : Option CsvOption)
    (nestFieldNames : List GoStr) : RunResult (List StringPair) :=
  let option := option.getD DefaultOption
  match
    nestFieldNames.foldl
      (fun acc name =>
        match acc with
        | none => none
        | some acc =>
          match parseNestStep option name acc.2 with
          | none => none
          | some step => some (acc.1 ++ step.1, step.2))
      (some (([] : List StringPair), cellString))
  with
  | none => RunResult.panicked
  | some (pairs, s) =>
    RunResult.ok
      (convertPairString pairs s option.PairSeparator option.KvSeparator)

/-- The replacement loop of `ParseNestStringSlice` for one nested field name
(convert.go lines 276-296): repeatedly find `name + kvSep + "{"`, capture the
content up to the first `"}"` of the string, record it in the side table
under a fresh id, and replace the matched `name_{...}` span by
`name + kvSep + id`.  Each successful replacement removes a `{`, so the
length of the string bounds the iteration count; `fuel` is that bound.  The
slice `s[beginPos+len(keyword):endPos]` at convert.go line 284 carries the
same `endPos > beginPos`-only guard as `ParseNestString`, so an inversion
(first `}` strictly inside the keyword occurrence) panics — modelled as
`none`. -/
def nestSliceLoop (option : CsvOption) (nestFieldName : GoStr) :
    Nat → GoStr → Nat → List (Int × StringPair) →
    Option (GoStr × Nat × List (Int × StringPair))
  | 0, s, idCounter, replaceKeys => some (s, idCounter, replaceKeys)
  | fuel + 1, s, idCounter, replaceKeys =>
    let keyword := nestFieldName ++ option.KvSeparator ++ [braceL]
    match goIndex s keyword with
    | none => some (s, idCounter, replaceKeys)
    | some beginPos =>
      match goIndex s [braceR] with
      | none => some (s, idCounter, replaceKeys)
      | some endPos =>
        if beginPos < endPos then
          if endPos < beginPos + keyword.length then none
          else
            let nestFieldValue :=
              (s.take endPos).drop (beginPos + keyword.length)
            let idCounter' := idCounter + 1
            let replaceKeys' :=
              (((idCounter' : Nat) : Int),
                (⟨nestFieldName, nestFieldValue⟩ : StringPair)) :: replaceKeys
            let old := keyword ++ nestFieldValue ++ [braceR]
            let new :=
              nestFieldName ++ option.KvSeparator ++ goItoa idCounter'
            nestSliceLoop option nestFieldName fuel (goReplace1 s old new)
              idCounter' replaceKeys'
        else some (s, idCounter, replaceKeys)

/-- `ParseNestStringSlice` from convert.go.  Unlike the other two parsing
entry points it never substitutes a default for a `nil` option, and it
dereferences the option unconditionally, so a `none` option panics. -/
def ParseNestStringSlice (cellString : GoStr) (option : Option CsvOption)
    (nestFieldNames : List GoStr) : RunResult (List (List StringPair)) :=
  match option with
  | none => RunResult.panicked
  | some option =>
    match
      nestFieldNames.foldl
        (fun st name =>
          match st with
          | none => none
          | some st =>
            match
              nestSliceLoop option name (st.1.length + 1) st.1 st.2.1 st.2.2
            with
            | none => none
            | some r => some (r.1, r.2.1, r.2.2))
        (some ((cellString, 0, ([] : List (Int × StringPair)))))
    with
    | none => RunResult.panicked
    | some st =>
      let s := st.1
      let replaceKeys := st.2.2
      let elemSlice := goSplit s option.SliceSeparator
      RunResult.ok <| elemSlice.map (fun elem =>
        let pairSlice := goSplit elem option.PairSeparator
        pairSlice.foldl
          (fun pairs pairString =>
            match goSplitN2 pairString option.KvSeparator with
            | [k, v] =>
              if nestFieldNames.contains k then
                match replaceKeys.lookup (Atoi v) with
                | some pair => pairs ++ [pair]
                | none => pairs
              else pairs ++ [⟨k, v⟩]
            | _ => pairs)
          [])

/-- Substring occurrence test ("contains" in the sense of Go
`strings.Contains`). -/
def containsSub (s pat : GoStr) : Bool := (goIndexAux pat s).isSome

/-- The join of a pair list described by the round-trip property: each pair
as `key ++ kvSep ++ value`, the pairs joined by `pairSep`.  (This definition
follows the spec's words; it is the spec-side inverse of
`convertPairString`.) -/
def joinPairs (pairs : List StringPair) (kvSep pairSep : GoStr) : GoStr :=
  List.intercalate pairSep (pairs.map fun p => p.Key ++ kvSep ++ p.Value)

/-- One step of nested-name extraction as the claim words it: the value is
the substring between the first occurrence of the keyword and the next `}`
after it, and the matched `name{...}` span is removed from the working
string.  (This definition follows the claim's words, for comparison with
`parseNestStep`.) -/
def parseNestClaimStep (option : CsvOption) (nestFieldName : GoStr)
    (s : GoStr) : List StringPair × GoStr :=
  let keyword := nestFieldName ++ option.KvSeparator ++ [braceL]
  match goIndex s keyword with
  | none => ([], s)
  | some beginPos =>
    let afterKw := s.drop (beginPos + keyword.length)
    match goIndex afterKw [braceR] with
    | none => ([], s)
    | some j =>
      ([⟨nestFieldName, afterKw.take j⟩],
        s.take beginPos ++ afterKw.drop (j + 1))

/-- `ParseNestString` as the claim describes it: claim-worded extraction step
for each nested name, then the plain pair parser on the residual string; the
claim describes a total function, embedded into `RunResult` as always
returning normally. -/
def parseNestStringClaim (cellString : GoStr) (option : Option CsvOption)
    (nestFieldNames : List GoStr) : RunResult (List StringPair) :=
  let option := option.getD DefaultOption
  let (pairs, s) :=
    nestFieldNames.foldl
      (fun acc name =>
        let step := parseNestClaimStep option name acc.2
        (acc.1 ++ step.1, step.2))
      (([] : List StringPair), cellString)
  RunResult.ok
    (convertPairString pairs s option.PairSeparator option.KvSeparator)

/-- One step of nested-name extraction as amended to the code's actual
behaviour: the closing brace considered is the first `}` of the whole
working string; when the keyword occurs and that brace lies strictly after
the keyword's start but before the keyword's end, the extraction slice
inverts and the program panics; when it lies at or after the keyword's end,
a pair is emitted and the text after the brace is kept in the residual only
when at least two characters follow the brace; otherwise the name is
skipped.  (Second definition following the amended claim's words.) -/
def parseNestAmendedStep (option : CsvOption) (nestFieldName : GoStr)
    (s : GoStr) : Option (List StringPair × GoStr) :=
  let keyword := nestFieldName ++ option.KvSeparator ++ [braceL]
  match goIndex s keyword, goIndex s [braceR] with
  | some beginPos, some endPos =>
    if endPos ≤ beginPos then some ([], s)
    else if endPos < beginPos + keyword.length then none
    else
      let contentStart := beginPos + keyword.length
      let value := (s.drop contentStart).take (endPos - contentStart)
      let tailPart := s.drop (endPos + 1)
      some ([⟨nestFieldName, value⟩],
        s.take beginPos ++ (if 2 ≤ tailPart.length then tailPart else []))
  | _, _ => some ([], s)

/-- `ParseNestString` as amended: amended extraction step for each nested
name, a panic in any step aborting the call, then the plain pair parser on
the residual string. -/
def parseNestStringAmended (cellString : GoStr) (option : Option CsvOption)
    (nestFieldNames : List GoStr) : RunResult (List StringPair) :=
  let option := option.getD DefaultOption
  match
    nestFieldNames.foldl
      (fun acc name =>
        match acc with
        | none => none
        | some acc =>
          match parseNestAmendedStep option name acc.2 with
          | none => none
          | some step => some (acc.1 ++ step.1, step.2))
      (some (([] : List StringPair), cellString))
  with
  | none => RunResult.panicked
  | some (pairs, s) =>
    RunResult.ok
      (convertPairString pairs s option.PairSeparator option.KvSeparator)

/-- The boolean coercion shared by convert.go lines 100 and 388:
`strings.ToLower(s) == "true" || s == "1"`. -/
def goBoolParse (s : GoStr) : Bool :=
  goToLower s = gs ("true") ∨ s = gs ("1")

/-- `ConvertStringToRealType` from convert.go: best-effort scalar coercion,
`none` for the kinds the final `return nil` covers.  Floats ignore the parse
error and fall back to zero (`"0"` as the stored token); a byte-slice target
takes the raw bytes of the string. -/
def ConvertStringToRealType (typ : Ty) (s : GoStr) : Option Value :=
  match typ with
  | Ty.tInt => some (Value.vInt (Atoi s))
  | Ty.tUint => some (Value.vUint (Atou s))
  | Ty.tFloat32 => some (Value.vFloat (if goFloatOk s then s else gs ("0")))
  | Ty.tFloat64 => some (Value.vFloat (if goFloatOk s then s else gs ("0")))
  | Ty.tString => some (Value.vString s)
  | Ty.tBool => some (Value.vBool (goBoolParse s))
  | Ty.tSlice Ty.tUint => some (Value.vSlice (s.map fun c => Value.vUint c.toNat))
  | _ => none

/-- Result of one call of the field populator on a settable slot: the slot
was left untouched, the slot was set to a value, or the call panicked. -/
inductive FieldWriteResult where
  | noSet
  | set (v : Value)
  | panicked
deriving Repr

/-- Go `reflect.Value.Elem` on the values converters return: succeeds only on
a pointer. -/
def valueElem : Value → Option Value
  | Value.vPtr v => some v
  | _ => none

/-- Zero value of a type (`reflect.New`), to the given nesting depth; pointer,
slice and map zeros are Go `nil`. -/
def zeroValueFuel (env : StructEnv) : Nat → Ty → Value
  | 0, _ => Value.vNil
  | _ + 1, Ty.tInt => Value.vInt 0
  | _ + 1, Ty.tUint => Value.vUint 0
  | _ + 1, Ty.tFloat32 => Value.vFloat (gs ("0"))
  | _ + 1, Ty.tFloat64 => Value.vFloat (gs ("0"))
  | _ + 1, Ty.tString => Value.vString []
  | _ + 1, Ty.tBool => Value.vBool false
  | fuel + 1, Ty.tStructN n =>
    Value.vStruct ((structFields env n).map fun fd =>
      (fd.1, zeroValueFuel env fuel fd.2))
  | _ + 1, Ty.tPtr _ => Value.vNil
  | _ + 1, Ty.tSlice _ => Value.vNil
  | _ + 1, Ty.tMap _ _ => Value.vNil
  | _ + 1, Ty.tOther => Value.vNil

/-- Zero value of a type.  The populator never recurses more than a handful
of levels (the one-level-nesting invariant cuts every deep chain), so depth 8
is exact on every reachable value. -/
def zeroValue (env : StructEnv) (t : Ty) : Value := zeroValueFuel env 8 t

/-- Field update on a struct value (`reflect.Value.Set` through
`FieldByName`). -/
def setStructField (flds : List (GoStr × Value)) (name : GoStr) (v : Value) :
    List (GoStr × Value) :=
  flds.map fun fd => if fd.1 = name then (fd.1, v) else fd

/-- Current value of a named field of a struct value. -/
def getStructField (flds : List (GoStr × Value)) (name : GoStr) : Value :=
  (flds.lookup name).getD Value.vNil

/-- The recursion signature the populator's branches recurse through: owner
object, declared type, current slot value, column name, cell string,
`isSubStruct` flag. -/
abbrev PopulateRec := Value → Ty → Value → GoStr → GoStr → Bool → FieldWriteResult

/-- One pair of the struct branch of `ConvertStringToFieldValue` (convert.go
lines 108-122): resolve the sub-field named by the pair's key (an unknown
key is logged and skipped), allocate through a pointer sub-field, and
recurse with `isSubStruct = true`.  `none` is a panic of the recursive
call. -/
def structPairStep (env : StructEnv) (recur : PopulateRec) (n : Nat)
    (acc : Option (List (GoStr × Value))) (pair : StringPair) :
    Option (List (GoStr × Value)) :=
  match acc with
  | none => none
  | some flds =>
    match (structFields env n).lookup pair.Key with
    | none => some flds
    | some subTy =>
      match subTy with
      | Ty.tPtr elemTy =>
        match
          recur (Value.vStruct flds) elemTy (zeroValue env elemTy) pair.Key
            pair.Value true
        with
        | FieldWriteResult.panicked => none
        | FieldWriteResult.set v =>
          some (setStructField flds pair.Key (Value.vPtr v))
        | FieldWriteResult.noSet =>
          some (setStructField flds pair.Key
            (Value.vPtr (zeroValue env elemTy)))
      | _ =>
        match
          recur (Value.vStruct flds) subTy (getStructField flds pair.Key)
            pair.Key pair.Value true
        with
        | FieldWriteResult.panicked => none
        | FieldWriteResult.set v => some (setStructField flds pair.Key v)
        | FieldWriteResult.noSet => some flds

/-- The struct branch of `ConvertStringToFieldValue` for a top-level slot
(convert.go lines 108-122): parse the cell into pairs and populate one
sub-field per pair.  `FieldByName` iteration over a non-struct current value
panics. -/
def structBranch (env : StructEnv) (option : CsvOption) (recur : PopulateRec)
    (n : Nat) (fieldVal : Value) (fieldString : GoStr) : FieldWriteResult :=
  match fieldVal with
  | Value.vStruct flds0 =>
    let pairs := ParsePairString fieldString (some option)
    match pairs.foldl (structPairStep env recur n) (some flds0) with
    | none => FieldWriteResult.panicked
    | some flds => FieldWriteResult.set (Value.vStruct flds)
  | _ => FieldWriteResult.panicked

/-- One token of the slice branch of `ConvertStringToFieldValue` (convert.go
lines 140-167): an empty token is skipped; the element value comes from the
element converter, from a recursive struct population (the element then
being the pointer to the fresh struct), or from the scalar coercer; a `nil`
element is logged and skipped; `convertToElem` dereferences before append
(a non-pointer there panics, as does a panicking recursive call — both are
`none`). -/
def sliceElemStep (env : StructEnv) (recur : PopulateRec)
    (object fieldVal : Value) (converter : Option FieldConverter)
    (sliceElemType : Ty) (convertToElem : Bool)
    (columnName : GoStr) (isSubStruct : Bool)
    (acc : Option (List Value)) (str : GoStr) : Option (List Value) :=
  match acc with
  | none => none
  | some elems =>
    if str = [] then some elems
    else
      let sliceElemValue : Option (Option Value) :=
        match converter with
        | some c => some (c object columnName str)
        | none =>
          match sliceElemType with
          | Ty.tStructN m =>
            match
              recur fieldVal (Ty.tStructN m) (zeroValue env (Ty.tStructN m))
                [] str isSubStruct
            with
            | FieldWriteResult.panicked => none
            | FieldWriteResult.set v => some (some (Value.vPtr v))
            | FieldWriteResult.noSet =>
              some (some (Value.vPtr (zeroValue env (Ty.tStructN m))))
          | _ => some (ConvertStringToRealType sliceElemType str)
      match sliceElemValue with
      | none => none
      | some none => some elems
      | some (some v) =>
        if convertToElem then
          match valueElem v with
          | some e => some (elems ++ [e])
          | none => none
        else some (elems ++ [v])

/-- The element-type adjustment of convert.go lines 131-138: a struct
element without a converter is built in place and dereferenced on append; a
pointer-to-struct element without a converter recurses on the pointee. -/
def adjustSliceElem (converter : Option FieldConverter) (elemTy0 : Ty)
    (convertToElem0 : Bool) : Ty × Bool :=
  match converter with
  | some _ => (elemTy0, convertToElem0)
  | none =>
    match elemTy0 with
    | Ty.tStructN _ => (elemTy0, true)
    | Ty.tPtr (Ty.tStructN m) => (Ty.tStructN m, convertToElem0)
    | _ => (elemTy0, convertToElem0)

/-- The slice branch of `ConvertStringToFieldValue` (convert.go lines
124-168): an empty cell leaves the slot; otherwise resolve the element
converter (adjusting a struct or pointer-to-struct element type as the
source does), split by the slice separator, and append one element per
non-empty token. -/
def sliceBranch (env : StructEnv) (option : CsvOption) (recur : PopulateRec)
    (object fieldVal : Value) (elemTy0 : Ty)
    (columnName fieldString : GoStr) (isSubStruct : Bool) : FieldWriteResult :=
  if fieldString = [] then FieldWriteResult.noSet
  else
    let lookup := GetConverterByTypePtrOrStruct option elemTy0
    let adjusted := adjustSliceElem lookup.1 elemTy0 lookup.2
    let sArray := goSplit fieldString option.SliceSeparator
    match
      sArray.foldl
        (sliceElemStep env recur object fieldVal lookup.1 adjusted.1
          adjusted.2 columnName isSubStruct)
        (some ([] : List Value))
    with
    | none => FieldWriteResult.panicked
    | some elems => FieldWriteResult.set (Value.vSlice elems)

/-- One pair of the map branch of `ConvertStringToFieldValue` (convert.go
lines 180-198): the key half goes through the scalar coercer, the value half
through the value converter or the scalar coercer; a `nil` value is logged
and skipped (before the key is used), a `nil` key panics at `SetMapIndex`,
and `convertToElem` dereferences the value before insertion. -/
def mapPairStep (object : Value) (converter : Option FieldConverter)
    (fieldKeyType fieldValueType : Ty) (convertToElem : Bool)
    (columnName : GoStr) (acc : Option (List (Value × Value)))
    (pair : StringPair) : Option (List (Value × Value)) :=
  match acc with
  | none => none
  | some entries =>
    let fieldKeyValue := ConvertStringToRealType fieldKeyType pair.Key
    let fieldValueValue : Option (Option Value) :=
      match converter with
      | some c => some (c object columnName pair.Value)
      | none => some (ConvertStringToRealType fieldValueType pair.Value)
    match fieldValueValue with
    | none => none
    | some none => some entries
    | some (some v) =>
      match fieldKeyValue with
      | none => none
      | some k =>
        if convertToElem then
          match valueElem v with
          | some e => some (entries ++ [(k, e)])
          | none => none
        else some (entries ++ [(k, v)])

/-- The map branch of `ConvertStringToFieldValue` (convert.go lines
170-199): an empty cell leaves the slot; otherwise parse pairs and insert
one entry per pair that yields a value. -/
def mapBranch (option : CsvOption) (object : Value)
    (fieldKeyType fieldValueType : Ty) (columnName fieldString : GoStr) :
    FieldWriteResult :=
  if fieldString = [] then FieldWriteResult.noSet
  else
    let lookup := GetConverterByTypePtrOrStruct option fieldValueType
    let pairs := ParsePairString fieldString (some option)
    match
      pairs.foldl
        (mapPairStep object lookup.1 fieldKeyType fieldValueType lookup.2
          columnName)
        (some ([] : List (Value × Value)))
    with
    | none => FieldWriteResult.panicked
    | some entries => FieldWriteResult.set (Value.vMap entries)

/-- The body of `ConvertStringToFieldValue` from convert.go (lines 36-206),
fuelled for the bounded recursion into struct fields and slice elements (the
one-level-nesting guard at line 103 cuts every recursion chain after a few
levels, so any fuel above that bound is exact; the wrapper supplies 8).

Arguments mirror the Go parameters: the owner `object` handed to converters,
the slot's declared type `ty`, the slot's current value `fieldVal`, the
column name, the raw cell string and the `isSubStruct` flag.  The slot is
assumed valid and settable (the `IsValid`/`CanSet` early returns of lines
37-44 are modelled at the call sites, which skip population of unresolved
field names); a converter is assumed to return a value assignable to the
slot when it returns one (a Go type mismatch would panic in `Set`).

Panics modelled: `fieldVal.Set(reflect.ValueOf(v))` with `v = nil` at line
52 (the column-name branch has no nil check), `reflect.ValueOf(v).Elem()`
on a non-pointer (lines 66, 163, 194), `FieldByName` pair iteration on a
non-struct current value, and `SetMapIndex` with an invalid (nil) key at
lines 194-196. -/
def ConvertStringToFieldValueFuel (env : StructEnv) (option : CsvOption) :
    Nat → Value → Ty → Value → GoStr → GoStr → Bool → FieldWriteResult
  | 0, _, _, _, _, _, _ => FieldWriteResult.noSet
  | fuel + 1, object, ty, fieldVal, columnName, fieldString, isSubStruct =>
    match
      (if isSubStruct then none else GetConverterByColumnName option columnName)
    with
    | some fieldConverter =>
      match fieldConverter object columnName fieldString with
      | none => FieldWriteResult.panicked
      | some v => FieldWriteResult.set v
    | none =>
      match
        (if isSubStruct then (none, false)
         else GetConverterByTypePtrOrStruct option ty)
      with
      | (some fieldConverter, convertFieldToElem) =>
        match fieldConverter object columnName fieldString with
        | none => FieldWriteResult.noSet
        | some v =>
          if convertFieldToElem then
            match valueElem v with
            | some e => FieldWriteResult.set e
            | none => FieldWriteResult.panicked
          else FieldWriteResult.set v
      | (none, _) =>
        match ty with
        | Ty.tInt => FieldWriteResult.set (Value.vInt (Atoi64 fieldString))
        | Ty.tUint => FieldWriteResult.set (Value.vUint (Atou fieldString))
        | Ty.tString => FieldWriteResult.set (Value.vString fieldString)
        | Ty.tFloat32 =>
          if goFloatOk fieldString then
            FieldWriteResult.set (Value.vFloat fieldString)
          else FieldWriteResult.noSet
        | Ty.tFloat64 =>
          if goFloatOk fieldString then
            FieldWriteResult.set (Value.vFloat fieldString)
          else FieldWriteResult.noSet
        | Ty.tBool =>
          FieldWriteResult.set (Value.vBool (goBoolParse fieldString))
        | Ty.tStructN n =>
          if isSubStruct then FieldWriteResult.noSet
          else
            structBranch env option
              (ConvertStringToFieldValueFuel env option fuel) n fieldVal
              fieldString
        | Ty.tSlice elemTy0 =>
          sliceBranch env option
            (ConvertStringToFieldValueFuel env option fuel) object fieldVal
            elemTy0 columnName fieldString isSubStruct
        | Ty.tMap fieldKeyType fieldValueType =>
          mapBranch option object fieldKeyType fieldValueType columnName
            fieldString
        | Ty.tPtr _ => FieldWriteResult.noSet
        | Ty.tOther => FieldWriteResult.noSet

/-- `ConvertStringToFieldValue` from convert.go, with the exact fuel. -/
def ConvertStringToFieldValue (env : StructEnv) (option : CsvOption)
    (object : Value) (ty : Ty) (fieldVal : Value)
    (columnName fieldString : GoStr) (isSubStruct : Bool) : FieldWriteResult :=
  ConvertStringToFieldValueFuel env option 8 object ty fieldVal columnName
    fieldString isSubStruct

/-- Population of a single named field slot on a struct being assembled,
shared by `ConvertCsvLineToValue` (convert.go lines 22-30) and
`ReadCsvFromDataObject` (csv.go lines 269-286): resolve the field by name
(an unresolved name makes the populator's `IsValid` check a no-op), allocate
through a pointer field, populate, and return the updated field list.
`object` is the owner value handed to converters. -/
def populateNamedField (env : StructEnv) (option : CsvOption) (n : Nat)
    (object : Value) (flds : List (GoStr × Value))
    (fieldName columnName fieldString : GoStr) :
    Option (List (GoStr × Value)) :=
  match (structFields env n).lookup fieldName with
  | none => some flds
  | some subTy =>
    match subTy with
    | Ty.tPtr elemTy =>
      match
        ConvertStringToFieldValue env option object elemTy
          (zeroValue env elemTy) columnName fieldString false
      with
      | FieldWriteResult.panicked => none
      | FieldWriteResult.set v =>
        some (setStructField flds fieldName (Value.vPtr v))
      | FieldWriteResult.noSet =>
        some (setStructField flds fieldName
          (Value.vPtr (zeroValue env elemTy)))
    | _ =>
      match
        ConvertStringToFieldValue env option object subTy
          (getStructField flds fieldName) columnName fieldString false
      with
      | FieldWriteResult.panicked => none
      | FieldWriteResult.set v => some (setStructField flds fieldName v)
      | FieldWriteResult.noSet => some flds

/-- Column loop of `ConvertCsvLineToValue` (convert.go lines 21-31): walk the
column names, reading `row[columnIndex]` (panicking when the row is too
short) and populating the field named by the column. -/
def convertCsvLineLoop (env : StructEnv) (option : CsvOption) (n : Nat)
    (wrapObject : List (GoStr × Value) → Value) (row : List GoStr) :
    List (GoStr × Value) → List (GoStr × Nat) → RunResult (List (GoStr × Value))
  | flds, [] => RunResult.ok flds
  | flds, (columnName, columnIndex) :: restCols =>
    match row.get? columnIndex with
    | none => RunResult.panicked
    | some fieldString =>
      match
        populateNamedField env option n (wrapObject flds) flds columnName
          columnName fieldString
      with
      | none => RunResult.panicked
      | some flds' => convertCsvLineLoop env option n wrapObject row flds' restCols

/-- `ConvertCsvLineToValue` from convert.go: allocate a fresh record of the
row's value type (dereferencing a pointer type), then populate one field per
header column.  `FieldByName` on a non-struct record panics as soon as a
column is processed.  The returned value is `newObject`: the pointer for a
pointer (or other non-struct) value type, the bare struct for a struct value
type. -/
def ConvertCsvLineToValue (env : StructEnv) (valueType : Ty)
    (row : List GoStr) (columnNames : List GoStr) (option : CsvOption) :
    RunResult Value :=
  let valueElemType := match valueType with | Ty.tPtr t => t | t => t
  match valueElemType with
  | Ty.tStructN n =>
    let wrapObject : List (GoStr × Value) → Value :=
      match valueType with
      | Ty.tStructN _ => fun flds => Value.vStruct flds
      | _ => fun flds => Value.vPtr (Value.vStruct flds)
    let zeroFlds :=
      match zeroValue env (Ty.tStructN n) with
      | Value.vStruct flds => flds
      | _ => []
    match
      convertCsvLineLoop env option n wrapObject row zeroFlds
        (columnNames.enum.map fun p => (p.2, p.1))
    with
    | RunResult.ok flds => RunResult.ok (wrapObject flds)
    | _ => RunResult.panicked
  | _ =>
    if columnNames = [] then
      RunResult.ok (Value.vPtr (zeroValue env valueElemType))
    else RunResult.panicked

/-- Data-row loop of `ReadCsvFromDataMap` (csv.go lines 202-208): read the
first cell as the map key, build the row's value, and insert.  An empty row
panics at `row[0]`; a key the scalar coercer cannot produce panics at
`SetMapIndex` with an invalid key (after the row value was built, matching
the statement order). -/
def readCsvMapLoop (env : StructEnv) (option : CsvOption)
    (keyType valueType : Ty) (columnNames : List GoStr) :
    List (List GoStr) → RunResult (List (Value × Value))
  | [] => RunResult.ok []
  | row :: rest =>
    match row.get? 0 with
    | none => RunResult.panicked
    | some keyString =>
      match ConvertCsvLineToValue env valueType row columnNames option with
      | RunResult.ok value =>
        match ConvertStringToRealType keyType keyString with
        | none => RunResult.panicked
        | some key =>
          match readCsvMapLoop env option keyType valueType columnNames rest with
          | RunResult.ok entries => RunResult.ok ((key, value) :: entries)
          | r => r
      | _ => RunResult.panicked

/-- `ReadCsvFromDataMap` from csv.go: structural checks in source order, then
the data-row loop from `DataBeginRowIndex`.  The result is the list of map
insertions in row order (Go map key-overwrite order is not observed by any
claim).  A negative `ColumnNameRowIndex` passes the bounds check at line 188
and then panics indexing `rows`. -/
def ReadCsvFromDataMap (env : StructEnv) (rows : List (List GoStr))
    (keyType valueType : Ty) (option : Option CsvOption) :
    RunResult (List (Value × Value)) :=
  let option := option.getD DefaultOption
  if rows.length = 0 then RunResult.err (gs ("no csv header"))
  else if (rows.length : Int) ≤ option.ColumnNameRowIndex then
    RunResult.err (gs ("no column name header"))
  else if option.ColumnNameRowIndex < 0 then RunResult.panicked
  else
    let columnNames := rows.getD option.ColumnNameRowIndex.toNat []
    if columnNames.length = 0 then RunResult.err (gs ("no column"))
    else if option.DataBeginRowIndex < 1 then
      RunResult.err (gs ("DataBeginRowIndex must >=1"))
    else
      readCsvMapLoop env option keyType valueType columnNames
        (rows.drop option.DataBeginRowIndex.toNat)

/-- Data-row loop of `ReadCsvFromDataSlice` (csv.go lines 233-237). -/
def readCsvSliceLoop (env : StructEnv) (option : CsvOption) (valueType : Ty)
    (columnNames : List GoStr) : List (List GoStr) → RunResult (List Value)
  | [] => RunResult.ok []
  | row :: rest =>
    match ConvertCsvLineToValue env valueType row columnNames option with
    | RunResult.ok value =>
      match readCsvSliceLoop env option valueType columnNames rest with
      | RunResult.ok values => RunResult.ok (value :: values)
      | r => r
    | _ => RunResult.panicked

/-- `ReadCsvFromDataSlice` from csv.go: the same structural checks as the map
reader, then one appended record per data row. -/
def ReadCsvFromDataSlice (env : StructEnv) (rows : List (List GoStr))
    (valueType : Ty) (option : Option CsvOption) : RunResult (List Value) :=
  let option := option.getD DefaultOption
  if rows.length = 0 then RunResult.err (gs ("no csv header"))
  else if (rows.length : Int) ≤ option.ColumnNameRowIndex then
    RunResult.err (gs ("no column name header"))
  else if option.ColumnNameRowIndex < 0 then RunResult.panicked
  else
    let columnNames := rows.getD option.ColumnNameRowIndex.toNat []
    if columnNames.length = 0 then RunResult.err (gs ("no column"))
    else if option.DataBeginRowIndex < 1 then
      RunResult.err (gs ("DataBeginRowIndex must >=1"))
    else
      readCsvSliceLoop env option valueType columnNames
        (rows.drop option.DataBeginRowIndex.toNat)

/-- Row loop of `ReadCsvFromDataObject` (csv.go lines 264-287): column 0 is
the field name, column 1 the cell (a row with fewer than two cells panics);
an unresolved field name falls back to the alias table, and a still
unresolved one is skipped by the populator's `IsValid` check. -/
def readCsvObjectLoop (env : StructEnv) (option : CsvOption) (n : Nat)
    (aliasNames : List (GoStr × GoStr)) :
    List (GoStr × Value) → List (List GoStr) → RunResult (List (GoStr × Value))
  | flds, [] => RunResult.ok flds
  | flds, row :: rest =>
    match row.get? 0, row.get? 1 with
    | some columnName, some fieldString =>
      let fieldName :=
        if ((structFields env n).lookup columnName).isSome then columnName
        else
          match aliasNames.lookup columnName with
          | some realFieldName => realFieldName
          | none => columnName
      match
        populateNamedField env option n (Value.vPtr (Value.vStruct flds)) flds
          fieldName columnName fieldString
      with
      | none => RunResult.panicked
      | some flds' => readCsvObjectLoop env option n aliasNames flds' rest
    | _, _ => RunResult.panicked

/-- `ReadCsvFromDataObject` from csv.go.  The alias table produced by
`getAliasNameMap` is not part of src/; modelled from the spec: the
alias-lookup collaborator of spec §6 is an opaque mapping from alternate
field names to canonical field names, supplied here as the `aliasNames`
argument.  The structural checks mirror csv.go lines 247-259 in source
order; the populated object (the pointee struct) is returned in place of
Go's in-place mutation, paired with the `nil` error as `ok`. -/
def ReadCsvFromDataObject (env : StructEnv) (rows : List (List GoStr))
    (vType : Ty) (v : Value) (option : Option CsvOption)
    (aliasNames : List (GoStr × GoStr)) : RunResult Value :=
  let option := option.getD DefaultOption
  if rows.length = 0 then RunResult.err (gs ("no csv header"))
  else if (rows.headD []).length < 2 then
    RunResult.err (gs ("column count must >= 2"))
  else if option.ObjectDataBeginRowIndex < 1 then
    RunResult.err (gs ("ObjectDataBeginRowIndex must >=1"))
  else
    match vType with
    | Ty.tPtr elemTy =>
      let dataRows := rows.drop option.ObjectDataBeginRowIndex.toNat
      (match elemTy, v with
      | Ty.tStructN n, Value.vPtr (Value.vStruct flds) =>
        (match readCsvObjectLoop env option n aliasNames flds dataRows with
        | RunResult.ok flds' => RunResult.ok (Value.vStruct flds')
        | _ => RunResult.panicked)
      | _, _ =>
        if dataRows = [] then RunResult.ok v else RunResult.panicked)
    | _ => RunResult.err (gs ("v must be Ptr"))

/-- The kinds for which `ConvertStringToRealType` always produces a value —
exactly the kinds a map key may have without `SetMapIndex` panicking on an
invalid key. -/
def realTypeTotal : Ty → Bool
  | Ty.tInt => true
  | Ty.tUint => true
  | Ty.tFloat32 => true
  | Ty.tFloat64 => true
  | Ty.tString => true
  | Ty.tBool => true
  | Ty.tSlice Ty.tUint => true
  | _ => false

/-- Panic-freedom of a declared type for the populator, to the given depth:
map keys must be coercible, and struct fields, slice elements and pointees
must recursively satisfy the same condition. -/
def tyNoPanicFuel (env : StructEnv) : Nat → Ty → Bool
  | 0, _ => false
  | fuel + 1, t =>
    match t with
    | Ty.tMap k _ => realTypeTotal k
    | Ty.tStructN n =>
      (structFields env n).all fun fd => tyNoPanicFuel env fuel fd.2
    | Ty.tSlice e => tyNoPanicFuel env fuel e
    | Ty.tPtr e => tyNoPanicFuel env fuel e
    | _ => true

/-- Benignity of a registry: column-name converters never return absent (an
absent result is assigned unchecked and panics), and converters registered
under a pointer type return only pointers (their results are dereferenced
when serving a plain struct slot or a `convertToElem` element). -/
def ConvertersBenign (option : CsvOption) : Prop :=
  (∀ p ∈ option.convertersByColumnName, ∀ o cn s, (p.2 o cn s).isSome) ∧
  (∀ p ∈ option.convertersByType, ∀ t, p.1 = Ty.tPtr t →
    ∀ o cn s v, p.2 o cn s = some v → ∃ e, v = Value.vPtr e)

/-- Structural-error condition of the map/slice readers, in the order the
source checks it: empty row set, no header row at the column-name index, a
header row with zero columns, or a data-begin index below 1. -/
def structuralErr (rows : List (List GoStr)) (option : CsvOption) : Prop :=
  rows.length = 0 ∨
  (rows.length : Int) ≤ option.ColumnNameRowIndex ∨
  (0 ≤ option.ColumnNameRowIndex ∧
    (rows.getD option.ColumnNameRowIndex.toNat []).length = 0) ∨
  (0 ≤ option.ColumnNameRowIndex ∧
    (rows.getD option.ColumnNameRowIndex.toNat []).length ≠ 0 ∧
    option.DataBeginRowIndex < 1)

/-- Structural-error condition of the object reader: empty row set, fewer
than two cells in the first row, object-data begin index below 1, or a
non-pointer destination. -/
def structuralErrObject (rows : List (List GoStr)) (option : CsvOption)
    (vType : Ty) : Prop :=
  rows.length = 0 ∨
  (rows.headD []).length < 2 ∨
  option.ObjectDataBeginRowIndex < 1 ∨
  (∀ t, vType ≠ Ty.tPtr t)

/-- Whether a reader outcome is Go's non-`nil` error return. -/
def RunResult.isErr {α : Type} : RunResult α → Prop
  | RunResult.err _ => True
  | _ => False

/-- The no-panic property of a single recursion level, abstracted over the
recursion's own no-panic property. -/
def RecNoPanic (env : StructEnv) (opt : CsvOption) (fuel : Nat) : Prop :=
  ∀ (obj : Value) (ty : Ty) (cur : Value) (cn s : GoStr) (isSub : Bool),
    tyNoPanicFuel env fuel ty = true →
    (∀ m, ty = Ty.tStructN m → isSub = false →
      GetConverterByColumnName opt cn = none →
      (GetConverterByTypePtrOrStruct opt (Ty.tStructN m)).1 = none →
      ∃ flds, cur = Value.vStruct flds) →
    ConvertStringToFieldValueFuel env opt fuel obj ty cur cn s isSub ≠
      FieldWriteResult.panicked

/-- Invariant of a struct's field list during population: every slot whose
declared type is a struct type, and which no registered converter serves,
still holds a struct value (so the nested-struct branch can write into it
without panicking). -/
def structFieldsOk (env : StructEnv) (opt : CsvOption) (n : Nat)
    (flds : List (GoStr × Value)) : Prop :=
  ∀ (name : GoStr) (m : Nat),
    (structFields env n).lookup name = some (Ty.tStructN m) →
    GetConverterByColumnName opt name = none →
    (GetConverterByTypePtrOrStruct opt (Ty.tStructN m)).1 = none →
    ∃ sub, getStructField flds name = Value.vStruct sub

/-- C5: `ParseNestStringSlice` on the documented two-child cell with nested
name `Items` and the default separators returns exactly two groups, each a
`Name` pair followed by an `Items` pair carrying the original unsplit braced
content. -/
theorem claim5_parseNestStringSlice_example :
    ParseNestStringSlice
      (gs ("Name_a#Items_\x7bCfgId_1#Num_1;CfgId_2#Num_1\x7d;Name_b#Items_\x7bCfgId_1#Num_2;CfgId_2#Num_2\x7d"))
      (some DefaultOption) [gs ("Items")] =
    RunResult.ok
      [[⟨gs ("Name"), gs ("a")⟩,
        ⟨gs ("Items"), gs ("CfgId_1#Num_1;CfgId_2#Num_1")⟩],
       [⟨gs ("Name"), gs ("b")⟩,
        ⟨gs ("Items"), gs ("CfgId_1#Num_2;CfgId_2#Num_2")⟩]] := by
  rfl

/-- C8: boolean coercion sends `"true"`, `"TRUE"`, `"1"` to `true` and `""`,
`"0"`, `"false"`, `"yes"` to `false`, and in general an input coerces to
`true` exactly when its lower-casing is `"true"` or it is literally `"1"`;
the same predicate is what the scalar coercer stores for a bool target. -/
theorem claim8_bool_coercion :
    (goBoolParse (gs ("true")) = true ∧ goBoolParse (gs ("TRUE")) = true ∧
     goBoolParse (gs ("1")) = true ∧ goBoolParse (gs ("")) = false ∧
     goBoolParse (gs ("0")) = false ∧ goBoolParse (gs ("false")) = false ∧
     goBoolParse (gs ("yes")) = false) ∧
    (∀ s : GoStr,
      goBoolParse s = true ↔ (goToLower s = gs ("true") ∨ s = gs ("1"))) ∧
    (∀ s : GoStr,
      ConvertStringToRealType Ty.tBool s =
        some (Value.vBool (goBoolParse s))) := by
  refine ⟨by decide, fun s => ?_, fun s => rfl⟩
  simp [goBoolParse]

/-- C10: a `none` option is replaced by the default before `ParsePairString`
and `ParseNestString` parse, so both agree with the explicit-default calls on
every cell; `ParseNestStringSlice` does no such substitution — it panics on a
`none` option for every input, while a present option lets it proceed to a
normal return (shown on a representative cell). -/
theorem claim10_nil_option_substitution :
    (∀ cell, ParsePairString cell none =
      ParsePairString cell (some DefaultOption)) ∧
    (∀ cell names, ParseNestString cell none names =
      ParseNestString cell (some DefaultOption) names) ∧
    (∀ cell names,
      ParseNestStringSlice cell none names = RunResult.panicked) ∧
    ParseNestStringSlice (gs ("A_1")) (some DefaultOption) [] =
      RunResult.ok [[⟨gs ("A"), gs ("1")⟩]] :=
  ⟨fun cell => rfl, fun cell names => rfl, fun cell names => rfl, rfl⟩

/-- C2 counterexample: a converter resolved from the column-name registry
that returns absent does not leave the field unset and return normally — the
unchecked `fieldVal.Set(reflect.ValueOf(v))` of convert.go line 52 panics on
the invalid value. -/
theorem claim2_counterexample_column_converter_absent_panics :
    ConvertStringToFieldValue []
      { DefaultOption with
          convertersByColumnName := [(gs ("Name"), fun _ _ _ => none)] }
      (Value.vStruct []) Ty.tString (Value.vString []) (gs ("Name"))
      (gs ("x")) false = FieldWriteResult.panicked := by
  rfl

/-- C2 (amended): only a converter resolved from the type registry gets the
absent-is-failure treatment — its `nil` result is logged and the field is
left unset with the call returning normally — while a column-name-registry
converter returning absent panics. -/
theorem claim2_amended_type_converter_absent_skips :
    (∀ (env : StructEnv) (opt : CsvOption) (obj : Value) (ty : Ty)
      (cur : Value) (cn s : GoStr) (c : FieldConverter) (b : Bool),
      GetConverterByColumnName opt cn = none →
      GetConverterByTypePtrOrStruct opt ty = (some c, b) →
      c obj cn s = none →
      ConvertStringToFieldValue env opt obj ty cur cn s false =
        FieldWriteResult.noSet) ∧
    (∀ (env : StructEnv) (opt : CsvOption) (obj : Value) (ty : Ty)
      (cur : Value) (cn s : GoStr) (c : FieldConverter),
      GetConverterByColumnName opt cn = some c →
      c obj cn s = none →
      ConvertStringToFieldValue env opt obj ty cur cn s false =
        FieldWriteResult.panicked) := by
  constructor
  · intro env opt obj ty cur cn s c b h1 h2 h3
    simp only [ConvertStringToFieldValue, ConvertStringToFieldValueFuel,
      Bool.false_eq_true, if_false, h1, h2, h3]
  · intro env opt obj ty cur cn s c h1 h2
    simp only [ConvertStringToFieldValue, ConvertStringToFieldValueFuel,
      Bool.false_eq_true, if_false, h1, h2]

/-- C2 amended, witnessed at concrete registries: a type-registry converter
absent on `"x"` leaves the string field unset; a column-name converter
absent on `"x"` panics. -/
theorem claim2_amended_witness :
    ConvertStringToFieldValue []
      { DefaultOption with
          convertersByType := [(Ty.tString, fun _ _ _ => none)] }
      (Value.vStruct []) Ty.tString (Value.vString []) (gs ("N")) (gs ("x"))
      false = FieldWriteResult.noSet ∧
    ConvertStringToFieldValue []
      { DefaultOption with
          convertersByColumnName := [(gs ("N"), fun _ _ _ => none)] }
      (Value.vStruct []) Ty.tString (Value.vString []) (gs ("N")) (gs ("x"))
      false = FieldWriteResult.panicked := by
  constructor
  · exact claim2_amended_type_converter_absent_skips.1 []
      { DefaultOption with
          convertersByType := [(Ty.tString, fun _ _ _ => none)] }
      (Value.vStruct []) Ty.tString (Value.vString []) (gs ("N")) (gs ("x"))
      (fun _ _ _ => none) false rfl rfl rfl
  · exact claim2_amended_type_converter_absent_skips.2 []
      { DefaultOption with
          convertersByColumnName := [(gs ("N"), fun _ _ _ => none)] }
      (Value.vStruct []) Ty.tString (Value.vString []) (gs ("N")) (gs ("x"))
      (fun _ _ _ => none) rfl rfl

/-- C6: a struct-kind slot reached with `insideNestedStruct` already true is
rejected, the slot is left untouched for every input; and on a concrete
outer struct whose cell holds a nested-struct pair and a string pair, the
string field is still populated while the doubly-nested field stays at its
zero value. -/
theorem claim6_nested_of_nested_rejected :
    (∀ (env : StructEnv) (opt : CsvOption) (obj : Value) (n : Nat)
      (cur : Value) (cn s : GoStr),
      ConvertStringToFieldValue env opt obj (Ty.tStructN n) cur cn s true =
        FieldWriteResult.noSet) ∧
    (ConvertStringToFieldValue
      [[(gs ("Inner"), Ty.tStructN 1), (gs ("Name"), Ty.tString)],
       [(gs ("X"), Ty.tInt)]]
      DefaultOption (Value.vStruct []) (Ty.tStructN 0)
      (zeroValue
        [[(gs ("Inner"), Ty.tStructN 1), (gs ("Name"), Ty.tString)],
         [(gs ("X"), Ty.tInt)]] (Ty.tStructN 0))
      (gs ("C")) (gs ("Inner_X_5#Name_bob")) false =
      FieldWriteResult.set (Value.vStruct
        [(gs ("Inner"), Value.vStruct [(gs ("X"), Value.vInt 0)]),
         (gs ("Name"), Value.vString (gs ("bob")))])) := by
  exact ⟨fun env opt obj n cur cn s => rfl, rfl⟩

/-- The slice branch is extensional in the recursion it is handed. -/
theorem sliceBranch_ext (env : StructEnv) (option : CsvOption)
    (r1 r2 : PopulateRec) (object fieldVal : Value) (elemTy0 : Ty)
    (cn fs : GoStr) (isSub : Bool)
    (h : ∀ o t c k v, r1 o t c k v isSub = r2 o t c k v isSub) :
    sliceBranch env option r1 object fieldVal elemTy0 cn fs isSub =
    sliceBranch env option r2 object fieldVal elemTy0 cn fs isSub := by
  unfold sliceBranch
  by_cases hfs : fs = []
  · simp [hfs]
  · simp only [hfs, reduceIte]
    congr 1
    apply List.foldl_ext
    intro acc str _
    unfold sliceElemStep
    cases acc with
    | none => rfl
    | some elems =>
      simp only []
      by_cases hstr : str = []
      · simp [hstr]
      · simp only [hstr, reduceIte]
        cases (GetConverterByTypePtrOrStruct option elemTy0).1 with
        | some c => rfl
        | none =>
          cases helem :
            (adjustSliceElem none elemTy0
              (GetConverterByTypePtrOrStruct option elemTy0).2).1
            with
          | tStructN m => simp only [helem, h]
          | _ => simp only [helem]

/-- The struct branch is extensional in the recursion it is handed. -/
theorem structBranch_ext (env : StructEnv) (option : CsvOption)
    (r1 r2 : PopulateRec) (n : Nat) (fieldVal : Value) (fs : GoStr)
    (h : ∀ o t c k v, r1 o t c k v true = r2 o t c k v true) :
    structBranch env option r1 n fieldVal fs =
    structBranch env option r2 n fieldVal fs := by
  unfold structBranch
  cases fieldVal <;> try rfl
  case vStruct flds0 =>
    have hf : List.foldl (structPairStep env r1 n) (some flds0)
        (ParsePairString fs (some option)) =
      List.foldl (structPairStep env r2 n) (some flds0)
        (ParsePairString fs (some option)) := by
      apply List.foldl_ext
      intro acc pair _
      unfold structPairStep
      cases acc with
      | none => rfl
      | some flds =>
        cases (structFields env n).lookup pair.Key with
        | none => rfl
        | some subTy => cases subTy <;> simp only [h]
    simp only [hf]

/-- With `isSubStruct` true the populator never consults the column-name
registry: erasing that registry does not change any result. -/
theorem convert_subStruct_skips_column_registry (env : StructEnv)
    (opt : CsvOption) :
    ∀ (fuel : Nat) (obj : Value) (ty : Ty) (cur : Value) (cn s : GoStr),
      ConvertStringToFieldValueFuel env opt fuel obj ty cur cn s true =
      ConvertStringToFieldValueFuel env
        { opt with convertersByColumnName := [] } fuel obj ty cur cn s true := by
  intro fuel
  induction fuel with
  | zero => intro obj ty cur cn s; rfl
  | succ fuel ih =>
    intro obj ty cur cn s
    cases ty <;> try rfl
    case tSlice elemTy =>
      show sliceBranch env opt (ConvertStringToFieldValueFuel env opt fuel)
          obj cur elemTy cn s true =
        sliceBranch env { opt with convertersByColumnName := [] }
          (ConvertStringToFieldValueFuel env
            { opt with convertersByColumnName := [] } fuel)
          obj cur elemTy cn s true
      have hswap :
          sliceBranch env { opt with convertersByColumnName := [] }
            (ConvertStringToFieldValueFuel env
              { opt with convertersByColumnName := [] } fuel)
            obj cur elemTy cn s true =
          sliceBranch env opt
            (ConvertStringToFieldValueFuel env
              { opt with convertersByColumnName := [] } fuel)
            obj cur elemTy cn s true := rfl
      rw [hswap]
      exact sliceBranch_ext env opt _ _ obj cur elemTy cn s true
        (fun o t c k v => ih o t c k v)

/-- C1: at top level the converter resolution follows the strict order —
column-name registry first, exact declared type next, pointer-to-struct
fallback with dereference third, built-in kind-based decoding last — and a
field inside a one-level-nested struct never consults the column-name
registry. -/
theorem claim1_resolution_order :
    (∀ (env : StructEnv) (opt : CsvOption) (obj : Value) (ty : Ty)
      (cur : Value) (cn s : GoStr) (c : FieldConverter),
      GetConverterByColumnName opt cn = some c →
      ConvertStringToFieldValue env opt obj ty cur cn s false =
        (match c obj cn s with
         | some v => FieldWriteResult.set v
         | none => FieldWriteResult.panicked)) ∧
    (∀ (env : StructEnv) (opt : CsvOption) (obj : Value) (ty : Ty)
      (cur : Value) (cn s : GoStr) (c : FieldConverter),
      GetConverterByColumnName opt cn = none →
      GetConverterByType opt ty = some c →
      ConvertStringToFieldValue env opt obj ty cur cn s false =
        (match c obj cn s with
         | none => FieldWriteResult.noSet
         | some v => FieldWriteResult.set v)) ∧
    (∀ (env : StructEnv) (opt : CsvOption) (obj : Value) (n : Nat)
      (cur : Value) (cn s : GoStr) (c : FieldConverter),
      GetConverterByColumnName opt cn = none →
      GetConverterByType opt (Ty.tStructN n) = none →
      GetConverterByType opt (Ty.tPtr (Ty.tStructN n)) = some c →
      ConvertStringToFieldValue env opt obj (Ty.tStructN n) cur cn s false =
        (match c obj cn s with
         | none => FieldWriteResult.noSet
         | some v =>
           match valueElem v with
           | some e => FieldWriteResult.set e
           | none => FieldWriteResult.panicked)) ∧
    (∀ (env : StructEnv) (opt : CsvOption) (obj : Value) (ty : Ty)
      (cur : Value) (cn s : GoStr),
      GetConverterByColumnName opt cn = none →
      GetConverterByTypePtrOrStruct opt ty = (none, false) →
      ((ty = Ty.tInt →
        ConvertStringToFieldValue env opt obj ty cur cn s false =
          FieldWriteResult.set (Value.vInt (Atoi64 s))) ∧
       (ty = Ty.tUint →
        ConvertStringToFieldValue env opt obj ty cur cn s false =
          FieldWriteResult.set (Value.vUint (Atou s))) ∧
       (ty = Ty.tString →
        ConvertStringToFieldValue env opt obj ty cur cn s false =
          FieldWriteResult.set (Value.vString s)) ∧
       (ty = Ty.tBool →
        ConvertStringToFieldValue env opt obj ty cur cn s false =
          FieldWriteResult.set (Value.vBool (goBoolParse s))))) ∧
    (∀ (env : StructEnv) (opt : CsvOption) (obj : Value) (ty : Ty)
      (cur : Value) (cn s : GoStr),
      ConvertStringToFieldValue env opt obj ty cur cn s true =
      ConvertStringToFieldValue env
        { opt with convertersByColumnName := [] } obj ty cur cn s true) := by
  refine ⟨?_, ?_, ?_, ?_, ?_⟩
  · intro env opt obj ty cur cn s c h1
    simp only [ConvertStringToFieldValue, ConvertStringToFieldValueFuel,
      Bool.false_eq_true, reduceIte, h1]
    cases c obj cn s <;> rfl
  · intro env opt obj ty cur cn s c h1 h2
    simp only [ConvertStringToFieldValue, ConvertStringToFieldValueFuel,
      Bool.false_eq_true, reduceIte, h1, GetConverterByTypePtrOrStruct, h2]
  · intro env opt obj n cur cn s c h1 h2 h3
    simp only [ConvertStringToFieldValue, ConvertStringToFieldValueFuel,
      Bool.false_eq_true, reduceIte, h1, GetConverterByTypePtrOrStruct, h2, h3]
  · intro env opt obj ty cur cn s h1 h2
    refine ⟨?_, ?_, ?_, ?_⟩ <;> intro hty <;> subst hty <;>
      simp only [ConvertStringToFieldValue, ConvertStringToFieldValueFuel,
        Bool.false_eq_true, reduceIte, h1, h2]
  · intro env opt obj ty cur cn s
    exact convert_subStruct_skips_column_registry env opt 8 obj ty cur cn s

/-- C1 witnessed at concrete registries: one hit per resolution tier, the
built-in integer decode when every tier misses, and the column-registry
independence of a nested-field population. -/
theorem claim1_resolution_order_witness :
    (ConvertStringToFieldValue []
      { DefaultOption with
          convertersByColumnName :=
            [(gs ("K"), fun _ _ _ => some (Value.vInt 7))] }
      (Value.vStruct []) Ty.tInt (Value.vInt 0) (gs ("K")) (gs ("5")) false =
      FieldWriteResult.set (Value.vInt 7)) ∧
    (ConvertStringToFieldValue []
      { DefaultOption with
          convertersByType := [(Ty.tInt, fun _ _ _ => some (Value.vInt 9))] }
      (Value.vStruct []) Ty.tInt (Value.vInt 0) (gs ("K")) (gs ("5")) false =
      FieldWriteResult.set (Value.vInt 9)) ∧
    (ConvertStringToFieldValue []
      { DefaultOption with
          convertersByType :=
            [(Ty.tPtr (Ty.tStructN 0),
              fun _ _ _ => some (Value.vPtr (Value.vBool true)))] }
      (Value.vStruct []) (Ty.tStructN 0) (Value.vStruct []) (gs ("K"))
      (gs ("5")) false = FieldWriteResult.set (Value.vBool true)) ∧
    (ConvertStringToFieldValue [] DefaultOption (Value.vStruct []) Ty.tInt
      (Value.vInt 0) (gs ("K")) (gs ("5")) false =
      FieldWriteResult.set (Value.vInt 5)) ∧
    (ConvertStringToFieldValue [] DefaultOption (Value.vStruct []) Ty.tInt
      (Value.vInt 0) (gs ("K")) (gs ("5")) true =
      ConvertStringToFieldValue []
        { DefaultOption with convertersByColumnName := [] }
        (Value.vStruct []) Ty.tInt (Value.vInt 0) (gs ("K")) (gs ("5")) true) := by
  refine ⟨?_, ?_, ?_, ?_, ?_⟩
  · exact claim1_resolution_order.1 []
      { DefaultOption with
          convertersByColumnName :=
            [(gs ("K"), fun _ _ _ => some (Value.vInt 7))] }
      (Value.vStruct []) Ty.tInt (Value.vInt 0) (gs ("K")) (gs ("5"))
      (fun _ _ _ => some (Value.vInt 7)) rfl
  · exact claim1_resolution_order.2.1 []
      { DefaultOption with
          convertersByType := [(Ty.tInt, fun _ _ _ => some (Value.vInt 9))] }
      (Value.vStruct []) Ty.tInt (Value.vInt 0) (gs ("K")) (gs ("5"))
      (fun _ _ _ => some (Value.vInt 9)) rfl rfl
  · exact claim1_resolution_order.2.2.1 []
      { DefaultOption with
          convertersByType :=
            [(Ty.tPtr (Ty.tStructN 0),
              fun _ _ _ => some (Value.vPtr (Value.vBool true)))] }
      (Value.vStruct []) 0 (Value.vStruct []) (gs ("K")) (gs ("5"))
      (fun _ _ _ => some (Value.vPtr (Value.vBool true))) rfl rfl rfl
  · exact (claim1_resolution_order.2.2.2.1 [] DefaultOption
      (Value.vStruct []) Ty.tInt (Value.vInt 0) (gs ("K")) (gs ("5")) rfl
      rfl).1 rfl
  · exact claim1_resolution_order.2.2.2.2 [] DefaultOption (Value.vStruct [])
      Ty.tInt (Value.vInt 0) (gs ("K")) (gs ("5"))

/-- The code's nested-extraction step coincides with its amended
description. -/
theorem parseNestStep_eq_amended (option : CsvOption) (name : GoStr)
    (s : GoStr) :
    parseNestStep option name s = parseNestAmendedStep option name s := by
  unfold parseNestStep parseNestAmendedStep
  simp only []
  cases hb : goIndex s (name ++ option.KvSeparator ++ [braceL]) with
  | none => simp [hb]
  | some beginPos =>
    cases he : goIndex s [braceR] with
    | none => simp [hb, he]
    | some endPos =>
      simp only [hb, he]
      by_cases hlt : beginPos < endPos
      · rw [if_pos hlt, if_neg (show ¬ endPos ≤ beginPos by omega)]
        by_cases hinv :
            endPos < beginPos + (name ++ option.KvSeparator ++ [braceL]).length
        · rw [if_pos hinv, if_pos hinv]
        · rw [if_neg hinv, if_neg hinv]
          have hval :
              ((s.take endPos).drop
                (beginPos + (name ++ option.KvSeparator ++ [braceL]).length)) =
              ((s.drop
                (beginPos + (name ++ option.KvSeparator ++ [braceL]).length)).take
                (endPos -
                  (beginPos + (name ++ option.KvSeparator ++ [braceL]).length))) := by
            rw [List.drop_take]
          have hres :
              (if endPos < s.length - 2 then s.take beginPos ++ s.drop (endPos + 1)
               else s.take beginPos) =
              s.take beginPos ++
                (if 2 ≤ (s.drop (endPos + 1)).length then s.drop (endPos + 1)
                 else []) := by
            by_cases hc : endPos < s.length - 2
            · rw [if_pos hc, if_pos (by simp only [List.length_drop]; omega)]
            · rw [if_neg hc, if_neg (by simp only [List.length_drop]; omega),
                List.append_nil]
          rw [hval, hres]
      · rw [if_neg hlt, if_pos (show endPos ≤ beginPos by omega)]

/-- C3 (amended): for each nested field name, `ParseNestString` considers
the first `}` of the whole working string; when that brace lies strictly
after the keyword's start but inside the keyword occurrence the extraction
slice inverts and the call panics (shown concretely on name `X}` and cell
`X}_{`); when it lies at or after the keyword's end the substring
between the keyword and the brace is extracted, and on removal of the
matched span the text after the brace is kept only when at least two
characters follow it; otherwise the name is skipped; the residual string
then goes through the plain pair parser. -/
theorem claim3_amended_parseNestString_behaviour :
    (∀ (cellString : GoStr) (option : Option CsvOption)
      (nestFieldNames : List GoStr),
      ParseNestString cellString option nestFieldNames =
      parseNestStringAmended cellString option nestFieldNames) ∧
    ParseNestString (gs ("X\x7d_\x7b")) (some DefaultOption)
      [gs ("X\x7d")] = RunResult.panicked := by
  constructor
  · intro cellString option nestFieldNames
    unfold ParseNestString parseNestStringAmended
    have hstep : parseNestStep (option.getD DefaultOption) =
        parseNestAmendedStep (option.getD DefaultOption) := by
      funext name s
      exact parseNestStep_eq_amended (option.getD DefaultOption) name s
    simp only [hstep]
  · rfl

/-- C3 counterexample: on `"Z_}#Items_{X_1}"` the code searches the first
`}` of the whole string (before the keyword), skips the nested name
entirely, and leaves `{X_1}` in the `Items` pair — not the claim's
the-next-brace-after-the-keyword extraction. -/
theorem claim3_counterexample_brace_before_keyword :
    ParseNestString (gs ("Z_\x7d#Items_\x7bX_1\x7d")) (some DefaultOption)
      [gs ("Items")] ≠
    parseNestStringClaim (gs ("Z_\x7d#Items_\x7bX_1\x7d"))
      (some DefaultOption) [gs ("Items")] := by
  decide

/-- A character absent from a string is not found by the index scan. -/
theorem goIndexAux_singleton_of_not_mem {p : Char} {s : GoStr} (h : p ∉ s) :
    goIndexAux [p] s = none := by
  induction s with
  | nil => rfl
  | cons c rest ih =>
    have h1 : p ≠ c := fun he => h (he ▸ List.mem_cons_self c rest)
    have h2 : p ∉ rest := fun hm => h (List.mem_cons_of_mem c hm)
    simp [goIndexAux, List.isPrefixOf, h1, ih h2]

/-- The index scan finds the first planted occurrence of a character. -/
theorem goIndexAux_singleton_append {p : Char} {pre : GoStr} (suf : GoStr)
    (h : p ∉ pre) :
    goIndexAux [p] (pre ++ p :: suf) = some pre.length := by
  induction pre with
  | nil => simp [goIndexAux, List.isPrefixOf]
  | cons c rest ih =>
    have h1 : p ≠ c := fun he => h (he ▸ List.mem_cons_self c rest)
    have h2 : p ∉ rest := fun hm => h (List.mem_cons_of_mem c hm)
    simp [goIndexAux, List.isPrefixOf, h1, ih h2]

/-- Splitting on an absent character returns the whole string. -/
theorem goSplitFuel_singleton_of_not_mem {p : Char} {s : GoStr} (h : p ∉ s) :
    ∀ fuel, goSplitFuel [p] fuel s = [s] := by
  intro fuel
  cases fuel with
  | zero => rfl
  | succ fuel => simp [goSplitFuel, goIndexAux_singleton_of_not_mem h]

/-- Splitting cuts exactly at a planted separator character when the
leading segment is separator-free. -/
theorem goSplitFuel_singleton_cons {p : Char} {seg : GoStr} (rest : GoStr)
    (h : p ∉ seg) (fuel : Nat) :
    goSplitFuel [p] (fuel + 1) (seg ++ p :: rest) =
      seg :: goSplitFuel [p] fuel rest := by
  simp only [goSplitFuel, goIndexAux_singleton_append rest h,
    List.length_singleton]
  have ht : (seg ++ p :: rest).take seg.length = seg := by
    simp
  have hd : (seg ++ p :: rest).drop (seg.length + 1) = rest := by
    have : seg ++ p :: rest = (seg ++ [p]) ++ rest := by simp
    rw [this]
    have hlen : (seg ++ [p]).length = seg.length + 1 := by simp
    rw [← hlen, List.drop_left]
  rw [ht, hd]

/-- The two-way split cuts exactly at a planted separator character when
the key is separator-free. -/
theorem goSplitN2_singleton {p : Char} {key : GoStr} (value : GoStr)
    (h : p ∉ key) :
    goSplitN2 (key ++ p :: value) [p] = [key, value] := by
  simp only [goSplitN2, goIndexAux_singleton_append value h,
    List.length_singleton]
  have ht : (key ++ p :: value).take key.length = key := by
    simp
  have hd : (key ++ p :: value).drop (key.length + 1) = value := by
    have : key ++ p :: value = (key ++ [p]) ++ value := by simp
    rw [this]
    have hlen : (key ++ [p]).length = key.length + 1 := by simp
    rw [← hlen, List.drop_left]
  rw [ht, hd]

/-- An intercalation is at least as long as its segment count, minus one. -/
theorem length_le_intercalate_singleton (p : Char) :
    ∀ segs : List GoStr,
      segs.length ≤ (List.intercalate [p] segs).length + 1
  | [] => by simp
  | [seg] => by simp [List.intercalate]
  | seg :: seg2 :: rest => by
    have ih := length_le_intercalate_singleton p (seg2 :: rest)
    have hun : List.intercalate [p] (seg :: seg2 :: rest) =
        seg ++ p :: List.intercalate [p] (seg2 :: rest) := by
      simp [List.intercalate, List.intersperse]
    rw [hun]
    simp only [List.length_cons, List.length_append] at ih ⊢
    omega

/-- Splitting an intercalation of separator-free segments on the
single-character separator recovers the segments. -/
theorem goSplitFuel_intercalate {p : Char} :
    ∀ (segs : List GoStr) (fuel : Nat), segs ≠ [] →
      (∀ seg ∈ segs, p ∉ seg) → segs.length ≤ fuel + 1 →
      goSplitFuel [p] fuel (List.intercalate [p] segs) = segs
  | [], _, hne, _, _ => absurd rfl hne
  | [seg], fuel, _, hmem, _ => by
    have : List.intercalate [p] [seg] = seg := by simp [List.intercalate]
    rw [this]
    exact goSplitFuel_singleton_of_not_mem (hmem seg (by simp)) fuel
  | seg :: seg2 :: rest, fuel, _, hmem, hlen => by
    have hun : List.intercalate [p] (seg :: seg2 :: rest) =
        seg ++ p :: List.intercalate [p] (seg2 :: rest) := by
      simp [List.intercalate, List.intersperse]
    cases fuel with
    | zero => simp at hlen
    | succ fuel =>
      rw [hun, goSplitFuel_singleton_cons _ (hmem seg (by simp)) fuel]
      congr 1
      exact goSplitFuel_intercalate (seg2 :: rest) fuel (by simp)
        (fun q hq => hmem q (List.mem_cons_of_mem seg hq))
        (by simp only [List.length_cons] at hlen ⊢; omega)

/-- Folding the pair parser over planted `key kvSep value` segments
recovers the pairs. -/
theorem convertPairString_segments {kc : Char} :
    ∀ (ps : List StringPair) (acc : List StringPair),
      (∀ q ∈ ps, kc ∉ q.Key) →
      List.foldl
        (fun acc pairString =>
          match goSplitN2 pairString [kc] with
          | [k, v] => acc ++ [⟨k, v⟩]
          | _ => acc)
        acc (ps.map fun q => q.Key ++ kc :: q.Value) = acc ++ ps
  | [], acc, _ => by simp
  | q :: ps, acc, hmem => by
    simp only [List.map_cons, List.foldl_cons]
    rw [goSplitN2_singleton q.Value (hmem q (by simp))]
    have := convertPairString_segments ps (acc ++ [⟨q.Key, q.Value⟩])
      (fun r hr => hmem r (List.mem_cons_of_mem q hr))
    rw [this]
    simp

/-- C4 (amended): with distinct single-character separators, joining pairs
as `key ++ kvSep ++ value` with pairs joined by `pairSep` and parsing the
result with `convertPairString` returns exactly the original pairs, in
order, whenever no key or value contains either separator character. -/
theorem claim4_amended_single_char_round_trip :
    ∀ (kc pc : Char) (pairs : List StringPair),
      kc ≠ pc →
      (∀ q ∈ pairs,
        kc ∉ q.Key ∧ pc ∉ q.Key ∧ kc ∉ q.Value ∧ pc ∉ q.Value) →
      convertPairString [] (joinPairs pairs [kc] [pc]) [pc] [kc] = pairs := by
  intro kc pc pairs hne hmem
  unfold convertPairString joinPairs
  cases hp : pairs with
  | nil => rfl
  | cons q ps =>
    have hsegs :
        goSplit (List.intercalate [pc]
          ((q :: ps).map fun r => r.Key ++ [kc] ++ r.Value)) [pc] =
        (q :: ps).map fun r => r.Key ++ [kc] ++ r.Value := by
      unfold goSplit
      rw [if_neg (by simp)]
      apply goSplitFuel_intercalate
      · simp
      · intro seg hseg
        simp only [List.mem_map] at hseg
        obtain ⟨r, hr, hrseg⟩ := hseg
        have hq := hmem r (hp ▸ hr)
        subst hrseg
        intro hx
        rcases List.mem_append.mp hx with hx1 | hx2
        · rcases List.mem_append.mp hx1 with hk | hkc
          · exact hq.2.1 hk
          · exact hne (List.mem_singleton.mp hkc).symm
        · exact hq.2.2.2 hx2
      · have := length_le_intercalate_singleton pc
          ((q :: ps).map fun r => r.Key ++ [kc] ++ r.Value)
        simp only [List.length_map] at this ⊢
        omega
    rw [hsegs]
    have hconv :
        (q :: ps).map (fun r => r.Key ++ [kc] ++ r.Value) =
        (q :: ps).map (fun r => r.Key ++ kc :: r.Value) := by
      simp
    rw [hconv]
    have := @convertPairString_segments kc (q :: ps) []
      (fun r hr => (hmem r (hp ▸ hr)).1)
    rw [this]
    simp

/-- C4 counterexample: with `kvSep = "b"`, `pairSep = "ab"` (distinct,
non-empty, and neither occurring inside the key `"a"` or the value `"c"`),
the joined single pair `"abc"` parses back to the empty list, not to the
original pair — the pair separator matches across the key/kv-separator
boundary. -/
theorem claim4_counterexample_multichar_separator :
    (gs ("b") ≠ gs ("ab") ∧ gs ("b") ≠ [] ∧ gs ("ab") ≠ [] ∧
     containsSub (gs ("a")) (gs ("b")) = false ∧
     containsSub (gs ("a")) (gs ("ab")) = false ∧
     containsSub (gs ("c")) (gs ("b")) = false ∧
     containsSub (gs ("c")) (gs ("ab")) = false) ∧
    joinPairs [⟨gs ("a"), gs ("c")⟩] (gs ("b")) (gs ("ab")) = gs ("abc") ∧
    convertPairString []
      (joinPairs [⟨gs ("a"), gs ("c")⟩] (gs ("b")) (gs ("ab")))
      (gs ("ab")) (gs ("b")) ≠ [⟨gs ("a"), gs ("c")⟩] := by
  decide

/-- C4 amended, witnessed: the single-character round trip at `kvSep = '_'`,
`pairSep = '#'` on two separator-free pairs. -/
theorem claim4_amended_witness :
    ('_' ≠ '#' ∧
      (∀ q ∈ [(⟨gs ("K"), gs ("V")⟩ : StringPair),
        ⟨gs ("L"), gs ("W")⟩],
        '_' ∉ q.Key ∧ '#' ∉ q.Key ∧ '_' ∉ q.Value ∧ '#' ∉ q.Value)) ∧
    convertPairString []
      (joinPairs [⟨gs ("K"), gs ("V")⟩, ⟨gs ("L"), gs ("W")⟩] ['_'] ['#'])
      ['#'] ['_'] = [⟨gs ("K"), gs ("V")⟩, ⟨gs ("L"), gs ("W")⟩] :=
  ⟨⟨by decide, by decide⟩,
    claim4_amended_single_char_round_trip '_' '#'
      [⟨gs ("K"), gs ("V")⟩, ⟨gs ("L"), gs ("W")⟩] (by decide) (by decide)⟩

theorem lookup_mem {α β : Type} [BEq α] [LawfulBEq α] {l : List (α × β)}
    {a : α} {b : β} (h : l.lookup a = some b) : (a, b) ∈ l := by
  induction l with
  | nil => simp [List.lookup] at h
  | cons p rest ih =>
    rcases p with ⟨k, v⟩
    rw [List.lookup] at h
    by_cases hk : a == k
    · simp only [hk] at h
      cases h
      have : a = k := eq_of_beq hk
      subst this
      exact List.mem_cons_self _ _
    · simp only [Bool.not_eq_true] at hk
      simp only [hk] at h
      exact List.mem_cons_of_mem _ (ih h)

theorem zeroValue_struct (env : StructEnv) (n : Nat) :
    ∃ flds, zeroValue env (Ty.tStructN n) = Value.vStruct flds :=
  ⟨_, rfl⟩

theorem tyNoPanicFuel_mono (env : StructEnv) :
    ∀ (fuel : Nat) (t : Ty), tyNoPanicFuel env fuel t = true →
      tyNoPanicFuel env (fuel + 1) t = true := by
  intro fuel
  induction fuel with
  | zero => intro t h; simp [tyNoPanicFuel] at h
  | succ fuel ih =>
    intro t h
    cases t <;> simp only [tyNoPanicFuel] at h ⊢ <;> try exact h
    case tStructN n =>
      rw [List.all_eq_true] at h ⊢
      exact fun fd hfd => ih fd.2 (h fd hfd)
    case tPtr e => exact ih e h
    case tSlice e => exact ih e h

theorem realTypeTotal_some {k : Ty} (h : realTypeTotal k = true) (s : GoStr) :
    ∃ v, ConvertStringToRealType k s = some v := by
  cases k <;> simp_all [realTypeTotal, ConvertStringToRealType]
  case tSlice e => cases e <;> simp_all [realTypeTotal, ConvertStringToRealType]

theorem typePtrOrStruct_true {opt : CsvOption} {ty : Ty} {c : FieldConverter}
    (h : GetConverterByTypePtrOrStruct opt ty = (some c, true)) :
    ∃ n, ty = Ty.tStructN n ∧
      GetConverterByType opt (Ty.tPtr (Ty.tStructN n)) = some c := by
  unfold GetConverterByTypePtrOrStruct at h
  cases hx : GetConverterByType opt ty with
  | some d => rw [hx] at h; simp at h
  | none =>
    rw [hx] at h
    cases ty with
    | tStructN n =>
      refine ⟨n, rfl, ?_⟩
      cases hp : GetConverterByType opt (Ty.tPtr (Ty.tStructN n)) with
      | some d =>
        simp only [] at h
        rw [hp] at h
        simp only [Prod.mk.injEq] at h
        exact h.1
      | none =>
        simp only [] at h
        rw [hp] at h
        simp at h
    | tInt => simp at h
    | tUint => simp at h
    | tFloat32 => simp at h
    | tFloat64 => simp at h
    | tString => simp at h
    | tBool => simp at h
    | tPtr t => simp at h
    | tSlice t => simp at h
    | tMap k v => simp at h
    | tOther => simp at h

theorem benign_col {opt : CsvOption} (hb : ConvertersBenign opt)
    {cn : GoStr} {c : FieldConverter}
    (h : GetConverterByColumnName opt cn = some c) :
    ∀ o n s, (c o n s).isSome := by
  intro o n s
  exact hb.1 (cn, c) (lookup_mem h) o n s

theorem benign_ptr {opt : CsvOption} (hb : ConvertersBenign opt) {t : Ty}
    {c : FieldConverter} (h : GetConverterByType opt (Ty.tPtr t) = some c)
    {o : Value} {n s : GoStr} {v : Value} (hv : c o n s = some v) :
    ∃ e, v = Value.vPtr e :=
  hb.2 (Ty.tPtr t, c) (lookup_mem h) t rfl o n s v hv

theorem tyNoPanic_unptr {env : StructEnv} {fuel : Nat} {e : Ty}
    (h : tyNoPanicFuel env fuel (Ty.tPtr e) = true) :
    tyNoPanicFuel env fuel e = true := by
  cases fuel with
  | zero => simp [tyNoPanicFuel] at h
  | succ fuel =>
    simp only [tyNoPanicFuel] at h
    exact tyNoPanicFuel_mono env fuel e h

theorem tyNoPanic_unslice {env : StructEnv} {fuel : Nat} {e : Ty}
    (h : tyNoPanicFuel env fuel (Ty.tSlice e) = true) :
    tyNoPanicFuel env fuel e = true := by
  cases fuel with
  | zero => simp [tyNoPanicFuel] at h
  | succ fuel =>
    simp only [tyNoPanicFuel] at h
    exact tyNoPanicFuel_mono env fuel e h

theorem tyNoPanic_fields {env : StructEnv} {fuel : Nat} {n : Nat}
    (h : tyNoPanicFuel env fuel (Ty.tStructN n) = true) :
    ∀ fd ∈ structFields env n, tyNoPanicFuel env fuel fd.2 = true := by
  cases fuel with
  | zero => simp [tyNoPanicFuel] at h
  | succ fuel =>
    simp only [tyNoPanicFuel, List.all_eq_true] at h
    exact fun fd hfd => tyNoPanicFuel_mono env fuel fd.2 (h fd hfd)

theorem tyNoPanic_mapKey {env : StructEnv} {fuel : Nat} {k v : Ty}
    (h : tyNoPanicFuel env fuel (Ty.tMap k v) = true) :
    realTypeTotal k = true := by
  cases fuel with
  | zero => simp [tyNoPanicFuel] at h
  | succ fuel => simpa [tyNoPanicFuel] using h

theorem typePtrOrStruct_none1 {opt : CsvOption} {ty : Ty}
    (h : (GetConverterByTypePtrOrStruct opt ty).1 = none) :
    GetConverterByTypePtrOrStruct opt ty = (none, false) := by
  unfold GetConverterByTypePtrOrStruct at h ⊢
  cases hx : GetConverterByType opt ty with
  | some d => rw [hx] at h; simp at h
  | none =>
    rw [hx] at h
    cases ty <;> try rfl
    case tStructN n =>
      cases hp : GetConverterByType opt (Ty.tPtr (Ty.tStructN n)) with
      | some d => simp only [] at h; rw [hp] at h; simp at h
      | none => simp only []; rw [hp]

theorem structFold_no_none (env : StructEnv) (opt : CsvOption) (fuel : Nat)
    (n : Nat)
    (hfields : ∀ fd ∈ structFields env n, tyNoPanicFuel env fuel fd.2 = true)
    (ihc : RecNoPanic env opt fuel) :
    ∀ (pairs : List StringPair) (flds : List (GoStr × Value)),
      pairs.foldl
        (structPairStep env (ConvertStringToFieldValueFuel env opt fuel) n)
        (some flds) ≠ none := by
  intro pairs
  induction pairs with
  | nil => intro flds h; exact Option.noConfusion h
  | cons pair rest ihp =>
    intro flds
    simp only [List.foldl_cons]
    cases hlk : (structFields env n).lookup pair.Key with
    | none =>
      simp only [structPairStep, hlk]
      exact ihp flds
    | some subTy =>
      have hty : tyNoPanicFuel env fuel subTy = true :=
        hfields (pair.Key, subTy) (lookup_mem hlk)
      cases subTy
      case tPtr elemTy =>
        have hnp := ihc (Value.vStruct flds) elemTy (zeroValue env elemTy)
          pair.Key pair.Value true (tyNoPanic_unptr hty)
          (fun m hm hfalse => nomatch hfalse)
        cases hr :
          ConvertStringToFieldValueFuel env opt fuel (Value.vStruct flds)
            elemTy (zeroValue env elemTy) pair.Key pair.Value true with
        | panicked => exact absurd hr hnp
        | set v => simp only [structPairStep, hlk, hr]; exact ihp _
        | noSet => simp only [structPairStep, hlk, hr]; exact ihp _
      all_goals
        have hnp := ihc (Value.vStruct flds) _
          (getStructField flds pair.Key) pair.Key pair.Value true hty
          (fun m hm hfalse => nomatch hfalse)
      all_goals
        cases hr :
          ConvertStringToFieldValueFuel env opt fuel (Value.vStruct flds) _
            (getStructField flds pair.Key) pair.Key pair.Value true with
        | panicked => exact absurd hr hnp
        | set v => simp only [structPairStep, hlk, hr]; exact ihp _
        | noSet => simp only [structPairStep, hlk, hr]; exact ihp _

theorem mapBranch_no_panic {opt : CsvOption} (hb : ConvertersBenign opt)
    {fieldKeyType fieldValueType : Ty} (hk : realTypeTotal fieldKeyType = true) :
    ∀ (object : Value) (cn fs : GoStr),
      mapBranch opt object fieldKeyType fieldValueType cn fs ≠
        FieldWriteResult.panicked := by
  intro object cn fs
  unfold mapBranch
  by_cases hfs : fs = []
  · simp [hfs]
  · simp only [hfs, reduceIte]
    have hfold : ∀ (pairs : List StringPair) (entries : List (Value × Value)),
        pairs.foldl
          (mapPairStep object (GetConverterByTypePtrOrStruct opt fieldValueType).1
            fieldKeyType fieldValueType
            (GetConverterByTypePtrOrStruct opt fieldValueType).2 cn)
          (some entries) ≠ none := by
      intro pairs
      induction pairs with
      | nil => intro entries h; exact Option.noConfusion h
      | cons pair rest ihp =>
        intro entries
        simp only [List.foldl_cons]
        obtain ⟨kv, hkv⟩ := realTypeTotal_some hk pair.Key
        have hstep : ∃ entries',
            mapPairStep object
              (GetConverterByTypePtrOrStruct opt fieldValueType).1
              fieldKeyType fieldValueType
              (GetConverterByTypePtrOrStruct opt fieldValueType).2 cn
              (some entries) pair = some entries' := by
          cases hcv : (GetConverterByTypePtrOrStruct opt fieldValueType).1 with
          | some c =>
            cases hres : c object cn pair.Value with
            | none => exact ⟨entries, by simp only [mapPairStep, hcv, hres]⟩
            | some v =>
              cases hcte :
                (GetConverterByTypePtrOrStruct opt fieldValueType).2 with
              | false =>
                exact ⟨entries ++ [(kv, v)],
                  by simp only [mapPairStep, hcv, hres, hkv, hcte,
                    Bool.false_eq_true, reduceIte]⟩
              | true =>
                have hfull : GetConverterByTypePtrOrStruct opt fieldValueType =
                    (some c, true) := by rw [← hcv, ← hcte]
                obtain ⟨m, hm, hptr⟩ := typePtrOrStruct_true hfull
                obtain ⟨e, rfl⟩ := benign_ptr hb hptr hres
                exact ⟨entries ++ [(kv, e)],
                  by simp only [mapPairStep, hcv, hres, hkv, hcte, reduceIte,
                    valueElem]⟩
          | none =>
            cases hrt : ConvertStringToRealType fieldValueType pair.Value with
            | none => exact ⟨entries, by simp only [mapPairStep, hcv, hrt]⟩
            | some v =>
              have hcte :
                  (GetConverterByTypePtrOrStruct opt fieldValueType).2 =
                    false := by rw [typePtrOrStruct_none1 hcv]
              exact ⟨entries ++ [(kv, v)],
                by simp only [mapPairStep, hcv, hrt, hkv, hcte,
                  Bool.false_eq_true, reduceIte]⟩
        obtain ⟨entries', hstep⟩ := hstep
        rw [hstep]
        exact ihp entries'
    cases hf : List.foldl
        (mapPairStep object (GetConverterByTypePtrOrStruct opt fieldValueType).1
          fieldKeyType fieldValueType
          (GetConverterByTypePtrOrStruct opt fieldValueType).2 cn)
        (some []) (ParsePairString fs (some opt)) with
    | none => exact absurd hf (hfold _ _)
    | some entries => simp [hf]

theorem foldl_some_of_step {α β : Type} (f : Option α → β → Option α)
    (hstep : ∀ a b, ∃ a', f (some a) b = some a') :
    ∀ (l : List β) (a : α), l.foldl f (some a) ≠ none := by
  intro l
  induction l with
  | nil => intro a h; exact Option.noConfusion h
  | cons b rest ih =>
    intro a
    simp only [List.foldl_cons]
    obtain ⟨a', ha⟩ := hstep a b
    rw [ha]
    exact ih a'

theorem sliceBranch_no_panic (env : StructEnv) {opt : CsvOption}
    (hb : ConvertersBenign opt) (fuel : Nat) (ihc : RecNoPanic env opt fuel)
    {elemTy0 : Ty} (hty : tyNoPanicFuel env fuel elemTy0 = true) :
    ∀ (object fieldVal : Value) (cn fs : GoStr) (isSub : Bool),
      sliceBranch env opt (ConvertStringToFieldValueFuel env opt fuel) object
        fieldVal elemTy0 cn fs isSub ≠ FieldWriteResult.panicked := by
  intro object fieldVal cn fs isSub
  unfold sliceBranch
  by_cases hfs : fs = []
  · simp [hfs]
  · simp only [hfs, reduceIte]
    have hstep : ∀ (elems : List Value) (str : GoStr),
        ∃ elems',
          sliceElemStep env (ConvertStringToFieldValueFuel env opt fuel)
            object fieldVal (GetConverterByTypePtrOrStruct opt elemTy0).1
            (adjustSliceElem (GetConverterByTypePtrOrStruct opt elemTy0).1
              elemTy0 (GetConverterByTypePtrOrStruct opt elemTy0).2).1
            (adjustSliceElem (GetConverterByTypePtrOrStruct opt elemTy0).1
              elemTy0 (GetConverterByTypePtrOrStruct opt elemTy0).2).2
            cn isSub (some elems) str = some elems' := by
      intro elems str
      by_cases hstr : str = []
      · exact ⟨elems, by simp [sliceElemStep, hstr]⟩
      cases hcv : (GetConverterByTypePtrOrStruct opt elemTy0).1 with
      | some c =>
        simp only [hcv, adjustSliceElem]
        cases hres : c object cn str with
        | none =>
          exact ⟨elems, by simp only [sliceElemStep, hstr, reduceIte, hres]⟩
        | some v =>
          cases hcte : (GetConverterByTypePtrOrStruct opt elemTy0).2 with
          | false =>
            exact ⟨elems ++ [v], by
              simp only [sliceElemStep, hstr, reduceIte, hres, hcte,
                Bool.false_eq_true]⟩
          | true =>
            have hfull : GetConverterByTypePtrOrStruct opt elemTy0 =
                (some c, true) := by rw [← hcv, ← hcte]
            obtain ⟨m, hm, hptr⟩ := typePtrOrStruct_true hfull
            obtain ⟨e, rfl⟩ := benign_ptr hb hptr hres
            exact ⟨elems ++ [e], by
              simp only [sliceElemStep, hstr, reduceIte, hres, hcte,
                valueElem]⟩
      | none =>
        have hcte : (GetConverterByTypePtrOrStruct opt elemTy0).2 = false := by
          rw [typePtrOrStruct_none1 hcv]
        simp only [hcv, hcte]
        cases elemTy0 with
        | tInt =>
          exact ⟨elems ++ [Value.vInt (Atoi str)], by
            simp only [sliceElemStep, hstr, reduceIte, adjustSliceElem,
              ConvertStringToRealType, Bool.false_eq_true]⟩
        | tUint =>
          exact ⟨elems ++ [Value.vUint (Atou str)], by
            simp only [sliceElemStep, hstr, reduceIte, adjustSliceElem,
              ConvertStringToRealType, Bool.false_eq_true]⟩
        | tFloat32 =>
          exact ⟨elems ++ [Value.vFloat (if goFloatOk str then str
              else gs ("0"))], by
            simp only [sliceElemStep, hstr, reduceIte, adjustSliceElem,
              ConvertStringToRealType, Bool.false_eq_true]⟩
        | tFloat64 =>
          exact ⟨elems ++ [Value.vFloat (if goFloatOk str then str
              else gs ("0"))], by
            simp only [sliceElemStep, hstr, reduceIte, adjustSliceElem,
              ConvertStringToRealType, Bool.false_eq_true]⟩
        | tString =>
          exact ⟨elems ++ [Value.vString str], by
            simp only [sliceElemStep, hstr, reduceIte, adjustSliceElem,
              ConvertStringToRealType, Bool.false_eq_true]⟩
        | tBool =>
          exact ⟨elems ++ [Value.vBool (goBoolParse str)], by
            simp only [sliceElemStep, hstr, reduceIte, adjustSliceElem,
              ConvertStringToRealType, Bool.false_eq_true]⟩
        | tSlice t =>
          cases hrt : ConvertStringToRealType (Ty.tSlice t) str with
          | none =>
            exact ⟨elems, by
              simp only [sliceElemStep, hstr, reduceIte, adjustSliceElem, hrt]⟩
          | some v =>
            exact ⟨elems ++ [v], by
              simp only [sliceElemStep, hstr, reduceIte, adjustSliceElem, hrt,
                Bool.false_eq_true]⟩
        | tMap k v =>
          exact ⟨elems, by
            simp only [sliceElemStep, hstr, reduceIte, adjustSliceElem,
              ConvertStringToRealType]⟩
        | tOther =>
          exact ⟨elems, by
            simp only [sliceElemStep, hstr, reduceIte, adjustSliceElem,
              ConvertStringToRealType]⟩
        | tStructN m =>
          have hnp := ihc fieldVal (Ty.tStructN m)
            (zeroValue env (Ty.tStructN m)) [] str isSub hty
            (fun _ _ _ _ _ => zeroValue_struct env m)
          cases hr :
            ConvertStringToFieldValueFuel env opt fuel fieldVal
              (Ty.tStructN m) (zeroValue env (Ty.tStructN m)) [] str isSub with
          | panicked => exact absurd hr hnp
          | set v =>
            exact ⟨elems ++ [v], by
              simp only [sliceElemStep, hstr, reduceIte, adjustSliceElem, hr,
                valueElem]⟩
          | noSet =>
            exact ⟨elems ++ [zeroValue env (Ty.tStructN m)], by
              simp only [sliceElemStep, hstr, reduceIte, adjustSliceElem, hr,
                valueElem]⟩
        | tPtr t =>
          cases t with
          | tStructN m =>
            have hnp := ihc fieldVal (Ty.tStructN m)
              (zeroValue env (Ty.tStructN m)) [] str isSub
              (tyNoPanic_unptr hty)
              (fun _ _ _ _ _ => zeroValue_struct env m)
            cases hr :
              ConvertStringToFieldValueFuel env opt fuel fieldVal
                (Ty.tStructN m) (zeroValue env (Ty.tStructN m)) [] str
                isSub with
            | panicked => exact absurd hr hnp
            | set v =>
              exact ⟨elems ++ [Value.vPtr v], by
                simp only [sliceElemStep, hstr, reduceIte, adjustSliceElem, hr,
                  Bool.false_eq_true]⟩
            | noSet =>
              exact ⟨elems ++ [Value.vPtr (zeroValue env (Ty.tStructN m))], by
                simp only [sliceElemStep, hstr, reduceIte, adjustSliceElem, hr,
                  Bool.false_eq_true]⟩
          | tInt =>
            exact ⟨elems, by
              simp only [sliceElemStep, hstr, reduceIte, adjustSliceElem,
                ConvertStringToRealType]⟩
          | tUint =>
            exact ⟨elems, by
              simp only [sliceElemStep, hstr, reduceIte, adjustSliceElem,
                ConvertStringToRealType]⟩
          | tFloat32 =>
            exact ⟨elems, by
              simp only [sliceElemStep, hstr, reduceIte, adjustSliceElem,
                ConvertStringToRealType]⟩
          | tFloat64 =>
            exact ⟨elems, by
              simp only [sliceElemStep, hstr, reduceIte, adjustSliceElem,
                ConvertStringToRealType]⟩
          | tString =>
            exact ⟨elems, by
              simp only [sliceElemStep, hstr, reduceIte, adjustSliceElem,
                ConvertStringToRealType]⟩
          | tBool =>
            exact ⟨elems, by
              simp only [sliceElemStep, hstr, reduceIte, adjustSliceElem,
                ConvertStringToRealType]⟩
          | tPtr u =>
            exact ⟨elems, by
              simp only [sliceElemStep, hstr, reduceIte, adjustSliceElem,
                ConvertStringToRealType]⟩
          | tSlice u =>
            exact ⟨elems, by
              simp only [sliceElemStep, hstr, reduceIte, adjustSliceElem,
                ConvertStringToRealType]⟩
          | tMap k v =>
            exact ⟨elems, by
              simp only [sliceElemStep, hstr, reduceIte, adjustSliceElem,
                ConvertStringToRealType]⟩
          | tOther =>
            exact ⟨elems, by
              simp only [sliceElemStep, hstr, reduceIte, adjustSliceElem,
                ConvertStringToRealType]⟩
    split
    · rename_i heq
      exact absurd heq (foldl_some_of_step _ hstep _ _)
    · exact fun h => FieldWriteResult.noConfusion h

theorem convert_no_panic (env : StructEnv) (opt : CsvOption)
    (hb : ConvertersBenign opt) : ∀ fuel : Nat, RecNoPanic env opt fuel := by
  intro fuel
  induction fuel with
  | zero =>
    intro obj ty cur cn s isSub hty _
    simp [tyNoPanicFuel] at hty
  | succ fuel ih =>
    intro obj ty cur cn s isSub hty hcur
    simp only [ConvertStringToFieldValueFuel]
    cases hcol : (if isSub then none else GetConverterByColumnName opt cn) with
    | some c =>
      have hc : GetConverterByColumnName opt cn = some c := by
        cases isSub with
        | true => simp at hcol
        | false => simpa using hcol
      have hs := benign_col hb hc obj cn s
      cases hres : c obj cn s with
      | none => rw [hres] at hs; simp at hs
      | some v =>
        simp only [hres]
        exact fun h => FieldWriteResult.noConfusion h
    | none =>
      cases htc :
        (if isSub then ((none : Option FieldConverter), false)
         else GetConverterByTypePtrOrStruct opt ty) with
      | mk copt b =>
        cases copt with
        | some c =>
          have hfull : GetConverterByTypePtrOrStruct opt ty = (some c, b) := by
            cases isSub with
            | true => simp at htc
            | false => simpa using htc
          cases hres : c obj cn s with
          | none =>
            simp only [hres]
            exact fun h => FieldWriteResult.noConfusion h
          | some v =>
            cases b with
            | false =>
              simp only [hres, Bool.false_eq_true, reduceIte]
              exact fun h => FieldWriteResult.noConfusion h
            | true =>
              obtain ⟨n, hn, hptr⟩ := typePtrOrStruct_true hfull
              obtain ⟨e, rfl⟩ := benign_ptr hb hptr hres
              simp only [hres, reduceIte, valueElem]
              exact fun h => FieldWriteResult.noConfusion h
        | none =>
          cases ty with
          | tInt => exact fun h => FieldWriteResult.noConfusion h
          | tUint => exact fun h => FieldWriteResult.noConfusion h
          | tString => exact fun h => FieldWriteResult.noConfusion h
          | tFloat32 =>
            by_cases hf : goFloatOk s = true
            · simp only [hf, reduceIte]
              exact fun h => FieldWriteResult.noConfusion h
            · simp only [Bool.not_eq_true] at hf
              simp only [hf, Bool.false_eq_true, reduceIte]
              exact fun h => FieldWriteResult.noConfusion h
          | tFloat64 =>
            by_cases hf : goFloatOk s = true
            · simp only [hf, reduceIte]
              exact fun h => FieldWriteResult.noConfusion h
            · simp only [Bool.not_eq_true] at hf
              simp only [hf, Bool.false_eq_true, reduceIte]
              exact fun h => FieldWriteResult.noConfusion h
          | tBool => exact fun h => FieldWriteResult.noConfusion h
          | tPtr t => exact fun h => FieldWriteResult.noConfusion h
          | tOther => exact fun h => FieldWriteResult.noConfusion h
          | tStructN n =>
            cases isSub with
            | true =>
              simp only [reduceIte]
              exact fun h => FieldWriteResult.noConfusion h
            | false =>
              simp only [Bool.false_eq_true, reduceIte]
              have hcolN : GetConverterByColumnName opt cn = none := by
                simpa using hcol
              have htypN :
                  (GetConverterByTypePtrOrStruct opt (Ty.tStructN n)).1 =
                    none := by
                have : GetConverterByTypePtrOrStruct opt (Ty.tStructN n) =
                    (none, b) := by simpa using htc
                rw [this]
              obtain ⟨flds, rfl⟩ := hcur n rfl rfl hcolN htypN
              have hfields : ∀ fd ∈ structFields env n,
                  tyNoPanicFuel env fuel fd.2 = true := by
                simp only [tyNoPanicFuel, List.all_eq_true] at hty
                exact hty
              unfold structBranch
              cases hfold :
                (ParsePairString s (some opt)).foldl
                  (structPairStep env
                    (ConvertStringToFieldValueFuel env opt fuel) n)
                  (some flds) with
              | none =>
                exact absurd hfold
                  (structFold_no_none env opt fuel n hfields ih
                    (ParsePairString s (some opt)) flds)
              | some flds' =>
                simp only [hfold]
                exact fun h => FieldWriteResult.noConfusion h
          | tSlice elemTy0 =>
            have hty' : tyNoPanicFuel env fuel elemTy0 = true := by
              simpa [tyNoPanicFuel] using hty
            exact sliceBranch_no_panic env hb fuel ih hty' obj cur cn s isSub
          | tMap k v =>
            exact mapBranch_no_panic hb (tyNoPanic_mapKey hty) obj cn s

theorem lookup_cons_beq {α β : Type} [BEq α] (k b : α) (v : β)
    (rest : List (α × β)) :
    List.lookup b ((k, v) :: rest) =
      if (b == k) = true then some v else List.lookup b rest := by
  cases h : b == k <;> simp [List.lookup, h]

theorem setStructField_cons (fk : GoStr) (fv : Value)
    (rest : List (GoStr × Value)) (a : GoStr) (v : Value) :
    setStructField ((fk, fv) :: rest) a v =
      (if fk = a then (fk, v) else (fk, fv)) :: setStructField rest a v := by
  by_cases h : fk = a <;> simp [setStructField, h]

theorem getStructField_set_ne (flds : List (GoStr × Value)) (a b : GoStr)
    (v : Value) (h : ¬ a = b) :
    getStructField (setStructField flds a v) b = getStructField flds b := by
  induction flds with
  | nil => rfl
  | cons fd rest ih =>
    rcases fd with ⟨fk, fv⟩
    rw [setStructField_cons]
    unfold getStructField at ih ⊢
    by_cases hfa : fk = a
    · subst hfa
      have hbk : (b == fk) = false :=
        beq_eq_false_iff_ne.mpr (fun e => h (e.symm))
      rw [if_pos rfl, lookup_cons_beq, lookup_cons_beq, if_neg (by simp [hbk]),
        if_neg (by simp [hbk])]
      exact ih
    · rw [if_neg hfa, lookup_cons_beq, lookup_cons_beq]
      by_cases hbk : (b == fk) = true
      · rw [if_pos hbk, if_pos hbk]
      · rw [if_neg hbk, if_neg hbk]
        exact ih

theorem getStructField_set_found (flds : List (GoStr × Value)) (a : GoStr)
    (v w : Value) (hw : flds.lookup a = some w) :
    getStructField (setStructField flds a v) a = v := by
  induction flds with
  | nil => simp [List.lookup] at hw
  | cons fd rest ih =>
    rcases fd with ⟨fk, fv⟩
    rw [setStructField_cons]
    rw [lookup_cons_beq] at hw
    unfold getStructField
    by_cases hfa : fk = a
    · subst hfa
      rw [if_pos rfl, lookup_cons_beq, if_pos (by simp)]
      rfl
    · have hak : (a == fk) = false :=
        beq_eq_false_iff_ne.mpr (fun e => hfa (e.symm))
      rw [if_neg (by simp [hak])] at hw
      rw [if_neg hfa, lookup_cons_beq, if_neg (by simp [hak])]
      exact ih hw

theorem structBranch_set_shape {env : StructEnv} {option : CsvOption}
    {r : PopulateRec} {n : Nat} {fieldVal : Value} {fs : GoStr} {v : Value}
    (h : structBranch env option r n fieldVal fs = FieldWriteResult.set v) :
    ∃ sub, v = Value.vStruct sub := by
  unfold structBranch at h
  cases fieldVal
  case vStruct flds0 =>
    simp only [] at h
    cases hf : (ParsePairString fs (some option)).foldl
        (structPairStep env r n) (some flds0) with
    | none => rw [hf] at h; exact absurd h (by simp)
    | some flds =>
      rw [hf] at h
      simp only [FieldWriteResult.set.injEq] at h
      exact ⟨flds, h.symm⟩
  all_goals exact absurd h (by simp)

theorem convert_top_struct_result {env : StructEnv} {opt : CsvOption}
    {obj : Value} {m : Nat} {cur : Value} {cn s : GoStr}
    (hcol : GetConverterByColumnName opt cn = none)
    (htyp : (GetConverterByTypePtrOrStruct opt (Ty.tStructN m)).1 = none) :
    ConvertStringToFieldValue env opt obj (Ty.tStructN m) cur cn s false =
      structBranch env opt (ConvertStringToFieldValueFuel env opt 7) m cur
        s := by
  have hfull := typePtrOrStruct_none1 htyp
  show ConvertStringToFieldValueFuel env opt 8 obj (Ty.tStructN m) cur cn s
      false = _
  simp only [ConvertStringToFieldValueFuel, Bool.false_eq_true, reduceIte,
    hcol, hfull]

theorem populateNamedField_some (env : StructEnv) {opt : CsvOption}
    (hb : ConvertersBenign opt) (n : Nat)
    (hfields : ∀ fd ∈ structFields env n, tyNoPanicFuel env 8 fd.2 = true) :
    ∀ (object : Value) (flds : List (GoStr × Value))
      (fieldName columnName fs : GoStr),
      structFieldsOk env opt n flds →
      (columnName = fieldName ∨ opt.convertersByColumnName = []) →
      ∃ flds',
        populateNamedField env opt n object flds fieldName columnName fs =
          some flds' ∧ structFieldsOk env opt n flds' := by
  intro object flds fieldName columnName fs hok hcols
  unfold populateNamedField
  cases hlk : (structFields env n).lookup fieldName with
  | none => exact ⟨flds, rfl, hok⟩
  | some subTy =>
    have hsubTy8 : tyNoPanicFuel env 8 subTy = true :=
      hfields (fieldName, subTy) (lookup_mem hlk)
    have hpres_ne : ∀ (v : Value),
        (∀ (m : Nat), subTy ≠ Ty.tStructN m) →
        structFieldsOk env opt n (setStructField flds fieldName v) := by
      intro v hne name m hn hcolN htyN
      by_cases hnf : name = fieldName
      · subst hnf
        rw [hlk] at hn
        simp only [Option.some.injEq] at hn
        exact absurd hn (hne m)
      · rw [getStructField_set_ne _ _ _ _ (fun e => hnf e.symm)]
        exact hok name m hn hcolN htyN
    cases subTy with
    | tPtr elemTy =>
      have hnp := convert_no_panic env opt hb 8 object elemTy
        (zeroValue env elemTy) columnName fs false (tyNoPanic_unptr hsubTy8)
        (fun m hm _ _ _ => by subst hm; exact zeroValue_struct env m)
      cases hr : ConvertStringToFieldValue env opt object elemTy
          (zeroValue env elemTy) columnName fs false with
      | panicked => exact absurd hr hnp
      | set v =>
        exact ⟨setStructField flds fieldName (Value.vPtr v), by simp only []; rw [hr],
          hpres_ne (Value.vPtr v) (fun m h => Ty.noConfusion h)⟩
      | noSet =>
        exact ⟨setStructField flds fieldName
          (Value.vPtr (zeroValue env elemTy)), by simp only []; rw [hr],
          hpres_ne _ (fun m h => Ty.noConfusion h)⟩
    | tStructN m0 =>
      have hval : ∀ (m : Nat), Ty.tStructN m0 = Ty.tStructN m → false = false →
          GetConverterByColumnName opt columnName = none →
          (GetConverterByTypePtrOrStruct opt (Ty.tStructN m)).1 = none →
          ∃ flds0, getStructField flds fieldName = Value.vStruct flds0 := by
        intro m hm _ hc ht
        have hmm : m = m0 := by
          injection hm with h1
          exact h1.symm
        subst hmm
        have hcf : GetConverterByColumnName opt fieldName = none := by
          rcases hcols with rfl | hempty
          · exact hc
          · simp [GetConverterByColumnName, hempty]
        exact hok fieldName m hlk hcf ht
      have hnp := convert_no_panic env opt hb 8 object (Ty.tStructN m0)
        (getStructField flds fieldName) columnName fs false hsubTy8 hval
      cases hr : ConvertStringToFieldValue env opt object (Ty.tStructN m0)
          (getStructField flds fieldName) columnName fs false with
      | panicked => exact absurd hr hnp
      | noSet => exact ⟨flds, by simp only []; rw [hr], hok⟩
      | set v =>
        refine ⟨setStructField flds fieldName v, by simp only []; rw [hr], ?_⟩
        intro name m hn hcolN htyN
        by_cases hnf : name = fieldName
        · subst hnf
          rw [hlk] at hn
          simp only [Option.some.injEq, Ty.tStructN.injEq] at hn
          subst hn
          have hcolC : GetConverterByColumnName opt columnName = none := by
            rcases hcols with rfl | hempty
            · exact hcolN
            · simp [GetConverterByColumnName, hempty]
          rw [convert_top_struct_result hcolC htyN] at hr
          obtain ⟨sub, rfl⟩ := structBranch_set_shape hr
          obtain ⟨sub0, hsub0⟩ := hok name m0 hlk hcolN htyN
          have hlook : flds.lookup name = some (Value.vStruct sub0) := by
            cases hl : flds.lookup name with
            | none =>
              unfold getStructField at hsub0
              rw [hl] at hsub0
              exact absurd hsub0 (by simp)
            | some w =>
              unfold getStructField at hsub0
              rw [hl] at hsub0
              simp only [Option.getD_some] at hsub0
              rw [hsub0]
          rw [getStructField_set_found _ _ _ _ hlook]
          exact ⟨sub, rfl⟩
        · rw [getStructField_set_ne _ _ _ _ (fun e => hnf e.symm)]
          exact hok name m hn hcolN htyN
    | tInt =>
      have hnp := convert_no_panic env opt hb 8 object Ty.tInt
        (getStructField flds fieldName) columnName fs false hsubTy8
        (fun m hm => nomatch hm)
      cases hr : ConvertStringToFieldValue env opt object Ty.tInt
          (getStructField flds fieldName) columnName fs false with
      | panicked => exact absurd hr hnp
      | noSet => exact ⟨flds, by simp only []; rw [hr], hok⟩
      | set v =>
        exact ⟨setStructField flds fieldName v, by simp only []; rw [hr],
          hpres_ne v (fun m h => Ty.noConfusion h)⟩
    | tUint =>
      have hnp := convert_no_panic env opt hb 8 object Ty.tUint
        (getStructField flds fieldName) columnName fs false hsubTy8
        (fun m hm => nomatch hm)
      cases hr : ConvertStringToFieldValue env opt object Ty.tUint
          (getStructField flds fieldName) columnName fs false with
      | panicked => exact absurd hr hnp
      | noSet => exact ⟨flds, by simp only []; rw [hr], hok⟩
      | set v =>
        exact ⟨setStructField flds fieldName v, by simp only []; rw [hr],
          hpres_ne v (fun m h => Ty.noConfusion h)⟩
    | tFloat32 =>
      have hnp := convert_no_panic env opt hb 8 object Ty.tFloat32
        (getStructField flds fieldName) columnName fs false hsubTy8
        (fun m hm => nomatch hm)
      cases hr : ConvertStringToFieldValue env opt object Ty.tFloat32
          (getStructField flds fieldName) columnName fs false with
      | panicked => exact absurd hr hnp
      | noSet => exact ⟨flds, by simp only []; rw [hr], hok⟩
      | set v =>
        exact ⟨setStructField flds fieldName v, by simp only []; rw [hr],
          hpres_ne v (fun m h => Ty.noConfusion h)⟩
    | tFloat64 =>
      have hnp := convert_no_panic env opt hb 8 object Ty.tFloat64
        (getStructField flds fieldName) columnName fs false hsubTy8
        (fun m hm => nomatch hm)
      cases hr : ConvertStringToFieldValue env opt object Ty.tFloat64
          (getStructField flds fieldName) columnName fs false with
      | panicked => exact absurd hr hnp
      | noSet => exact ⟨flds, by simp only []; rw [hr], hok⟩
      | set v =>
        exact ⟨setStructField flds fieldName v, by simp only []; rw [hr],
          hpres_ne v (fun m h => Ty.noConfusion h)⟩
    | tString =>
      have hnp := convert_no_panic env opt hb 8 object Ty.tString
        (getStructField flds fieldName) columnName fs false hsubTy8
        (fun m hm => nomatch hm)
      cases hr : ConvertStringToFieldValue env opt object Ty.tString
          (getStructField flds fieldName) columnName fs false with
      | panicked => exact absurd hr hnp
      | noSet => exact ⟨flds, by simp only []; rw [hr], hok⟩
      | set v =>
        exact ⟨setStructField flds fieldName v, by simp only []; rw [hr],
          hpres_ne v (fun m h => Ty.noConfusion h)⟩
    | tBool =>
      have hnp := convert_no_panic env opt hb 8 object Ty.tBool
        (getStructField flds fieldName) columnName fs false hsubTy8
        (fun m hm => nomatch hm)
      cases hr : ConvertStringToFieldValue env opt object Ty.tBool
          (getStructField flds fieldName) columnName fs false with
      | panicked => exact absurd hr hnp
      | noSet => exact ⟨flds, by simp only []; rw [hr], hok⟩
      | set v =>
        exact ⟨setStructField flds fieldName v, by simp only []; rw [hr],
          hpres_ne v (fun m h => Ty.noConfusion h)⟩
    | tSlice e =>
      have hnp := convert_no_panic env opt hb 8 object (Ty.tSlice e)
        (getStructField flds fieldName) columnName fs false hsubTy8
        (fun m hm => nomatch hm)
      cases hr : ConvertStringToFieldValue env opt object (Ty.tSlice e)
          (getStructField flds fieldName) columnName fs false with
      | panicked => exact absurd hr hnp
      | noSet => exact ⟨flds, by simp only []; rw [hr], hok⟩
      | set v =>
        exact ⟨setStructField flds fieldName v, by simp only []; rw [hr],
          hpres_ne v (fun m h => Ty.noConfusion h)⟩
    | tMap k vt =>
      have hnp := convert_no_panic env opt hb 8 object (Ty.tMap k vt)
        (getStructField flds fieldName) columnName fs false hsubTy8
        (fun m hm => nomatch hm)
      cases hr : ConvertStringToFieldValue env opt object (Ty.tMap k vt)
          (getStructField flds fieldName) columnName fs false with
      | panicked => exact absurd hr hnp
      | noSet => exact ⟨flds, by simp only []; rw [hr], hok⟩
      | set v =>
        exact ⟨setStructField flds fieldName v, by simp only []; rw [hr],
          hpres_ne v (fun m h => Ty.noConfusion h)⟩
    | tOther =>
      have hnp := convert_no_panic env opt hb 8 object Ty.tOther
        (getStructField flds fieldName) columnName fs false hsubTy8
        (fun m hm => nomatch hm)
      cases hr : ConvertStringToFieldValue env opt object Ty.tOther
          (getStructField flds fieldName) columnName fs false with
      | panicked => exact absurd hr hnp
      | noSet => exact ⟨flds, by simp only []; rw [hr], hok⟩
      | set v =>
        exact ⟨setStructField flds fieldName v, by simp only []; rw [hr],
          hpres_ne v (fun m h => Ty.noConfusion h)⟩

theorem lookup_map_zero (env : StructEnv) (fuel : Nat) (name : GoStr) :
    ∀ (l : List (GoStr × Ty)),
      List.lookup name (l.map fun fd => (fd.1, zeroValueFuel env fuel fd.2)) =
        (List.lookup name l).map (zeroValueFuel env fuel)
  | [] => rfl
  | fd :: rest => by
    rcases fd with ⟨k, t⟩
    simp only [List.map_cons]
    rw [lookup_cons_beq, lookup_cons_beq]
    by_cases hk : (name == k) = true
    · rw [if_pos hk, if_pos hk]
      rfl
    · rw [if_neg hk, if_neg hk]
      exact lookup_map_zero env fuel name rest

theorem zero_structFieldsOk (env : StructEnv) (opt : CsvOption) (n : Nat) :
    structFieldsOk env opt n
      ((structFields env n).map fun fd =>
        (fd.1, zeroValueFuel env 7 fd.2)) := by
  intro name m hn _ _
  unfold getStructField
  rw [lookup_map_zero, hn]
  exact ⟨_, rfl⟩

theorem convertCsvLineLoop_ok (env : StructEnv) {opt : CsvOption}
    (hb : ConvertersBenign opt) (n : Nat)
    (hfields : ∀ fd ∈ structFields env n, tyNoPanicFuel env 8 fd.2 = true)
    (wrapObject : List (GoStr × Value) → Value) (row : List GoStr) :
    ∀ (cols : List (GoStr × Nat)) (flds : List (GoStr × Value)),
      structFieldsOk env opt n flds →
      (∀ c ∈ cols, c.2 < row.length) →
      ∃ flds', convertCsvLineLoop env opt n wrapObject row flds cols =
        RunResult.ok flds' := by
  intro cols
  induction cols with
  | nil => intro flds _ _; exact ⟨flds, rfl⟩
  | cons c rest ih =>
    intro flds hok hcov
    rcases c with ⟨cn, i⟩
    have hi : i < row.length := hcov (cn, i) (List.mem_cons_self _ _)
    obtain ⟨fs, hfs⟩ : ∃ fs, row.get? i = some fs := by
      cases hg : row.get? i with
      | none =>
        rw [List.get?_eq_none] at hg
        omega
      | some fs => exact ⟨fs, rfl⟩
    obtain ⟨flds', hstep, hok'⟩ := populateNamedField_some env hb n hfields
      (wrapObject flds) flds cn cn fs hok (Or.inl rfl)
    unfold convertCsvLineLoop
    rw [hfs]
    simp only []
    rw [hstep]
    exact ih flds' hok' (fun c hc => hcov c (List.mem_cons_of_mem _ hc))

theorem convertCsvLineToValue_ok (env : StructEnv) {opt : CsvOption}
    (hb : ConvertersBenign opt) {valueType : Ty} {n : Nat}
    (hvt : valueType = Ty.tStructN n ∨ valueType = Ty.tPtr (Ty.tStructN n))
    (hfields : ∀ fd ∈ structFields env n, tyNoPanicFuel env 8 fd.2 = true)
    (row columnNames : List GoStr)
    (hcov : columnNames.length ≤ row.length) :
    ∃ v, ConvertCsvLineToValue env valueType row columnNames opt =
      RunResult.ok v := by
  have hcols : ∀ c ∈ (columnNames.enum.map fun p => (p.2, p.1)),
      c.2 < row.length := by
    intro c hc
    simp only [List.mem_map] at hc
    obtain ⟨p, hp, rfl⟩ := hc
    rcases p with ⟨i, x⟩
    have := (List.mem_enum hp).1
    simp only []
    omega
  have hz : structFieldsOk env opt n
      (match zeroValue env (Ty.tStructN n) with
        | Value.vStruct flds => flds
        | _ => []) := zero_structFieldsOk env opt n
  rcases hvt with rfl | rfl
  · obtain ⟨flds', hloop⟩ := convertCsvLineLoop_ok env hb n hfields
      (fun flds => Value.vStruct flds) row
      (columnNames.enum.map fun p => (p.2, p.1))
      (match zeroValue env (Ty.tStructN n) with
        | Value.vStruct flds => flds
        | _ => []) hz hcols
    refine ⟨Value.vStruct flds', ?_⟩
    simp only [ConvertCsvLineToValue]
    rw [hloop]
  · obtain ⟨flds', hloop⟩ := convertCsvLineLoop_ok env hb n hfields
      (fun flds => Value.vPtr (Value.vStruct flds)) row
      (columnNames.enum.map fun p => (p.2, p.1))
      (match zeroValue env (Ty.tStructN n) with
        | Value.vStruct flds => flds
        | _ => []) hz hcols
    refine ⟨Value.vPtr (Value.vStruct flds'), ?_⟩
    simp only [ConvertCsvLineToValue]
    rw [hloop]

theorem readCsvMapLoop_ne_err (env : StructEnv) (opt : CsvOption)
    (keyType valueType : Ty) (columnNames : List GoStr) :
    ∀ dataRows,
      ¬ (readCsvMapLoop env opt keyType valueType columnNames dataRows).isErr := by
  intro dataRows
  induction dataRows with
  | nil => exact fun h => h
  | cons row rest ih =>
    intro h
    unfold readCsvMapLoop at h
    split at h
    · exact h
    · split at h
      · split at h
        · exact h
        · split at h
          · exact h
          · exact ih h
      · exact h

theorem readCsvSliceLoop_ne_err (env : StructEnv) (opt : CsvOption)
    (valueType : Ty) (columnNames : List GoStr) :
    ∀ dataRows,
      ¬ (readCsvSliceLoop env opt valueType columnNames dataRows).isErr := by
  intro dataRows
  induction dataRows with
  | nil => exact fun h => h
  | cons row rest ih =>
    intro h
    unfold readCsvSliceLoop at h
    split at h
    · split at h
      · exact h
      · exact ih h
    · exact h

theorem readCsvObjectLoop_ne_err (env : StructEnv) (opt : CsvOption) (n : Nat)
    (aliasNames : List (GoStr × GoStr)) :
    ∀ dataRows flds,
      ¬ (readCsvObjectLoop env opt n aliasNames flds dataRows).isErr := by
  intro dataRows
  induction dataRows with
  | nil => exact fun flds h => h
  | cons row rest ih =>
    intro flds h
    unfold readCsvObjectLoop at h
    split at h
    · rename_i c0 c1 h0 h1
      simp only [] at h
      cases hp : populateNamedField env opt n (Value.vPtr (Value.vStruct flds))
          flds
          (if ((structFields env n).lookup c0).isSome then c0
           else
             match aliasNames.lookup c0 with
             | some realFieldName => realFieldName
             | none => c0) c0 c1 with
      | none =>
        rw [hp] at h
        exact h
      | some flds' =>
        rw [hp] at h
        exact ih _ h
    · exact h

theorem readCsvMapLoop_ok (env : StructEnv) {opt : CsvOption}
    (hb : ConvertersBenign opt) {keyType valueType : Ty} {n : Nat}
    (hvt : valueType = Ty.tStructN n ∨ valueType = Ty.tPtr (Ty.tStructN n))
    (hfields : ∀ fd ∈ structFields env n, tyNoPanicFuel env 8 fd.2 = true)
    (hkt : realTypeTotal keyType = true)
    (columnNames : List GoStr) (hcn : columnNames ≠ []) :
    ∀ dataRows, (∀ row ∈ dataRows, columnNames.length ≤ row.length) →
      ∃ entries,
        readCsvMapLoop env opt keyType valueType columnNames dataRows =
          RunResult.ok entries := by
  intro dataRows
  induction dataRows with
  | nil => intro _; exact ⟨[], rfl⟩
  | cons row rest ih =>
    intro hcov
    have hlen : columnNames.length ≤ row.length :=
      hcov row (List.mem_cons_self _ _)
    have hpos : 0 < columnNames.length := List.length_pos.mpr hcn
    obtain ⟨ks, hks⟩ : ∃ ks, row.get? 0 = some ks := by
      cases hg : row.get? 0 with
      | none =>
        rw [List.get?_eq_none] at hg
        omega
      | some ks => exact ⟨ks, rfl⟩
    obtain ⟨v, hv⟩ := convertCsvLineToValue_ok env hb hvt hfields row
      columnNames hlen
    obtain ⟨kv, hkv⟩ := realTypeTotal_some hkt ks
    obtain ⟨entries, hrest⟩ := ih (fun r hr => hcov r (List.mem_cons_of_mem _ hr))
    refine ⟨(kv, v) :: entries, ?_⟩
    unfold readCsvMapLoop
    rw [hks]
    simp only []
    rw [hv]
    simp only []
    rw [hkv]
    simp only []
    rw [hrest]

theorem readCsvSliceLoop_ok (env : StructEnv) {opt : CsvOption}
    (hb : ConvertersBenign opt) {valueType : Ty} {n : Nat}
    (hvt : valueType = Ty.tStructN n ∨ valueType = Ty.tPtr (Ty.tStructN n))
    (hfields : ∀ fd ∈ structFields env n, tyNoPanicFuel env 8 fd.2 = true)
    (columnNames : List GoStr) :
    ∀ dataRows, (∀ row ∈ dataRows, columnNames.length ≤ row.length) →
      ∃ values,
        readCsvSliceLoop env opt valueType columnNames dataRows =
          RunResult.ok values := by
  intro dataRows
  induction dataRows with
  | nil => intro _; exact ⟨[], rfl⟩
  | cons row rest ih =>
    intro hcov
    have hlen : columnNames.length ≤ row.length :=
      hcov row (List.mem_cons_self _ _)
    obtain ⟨v, hv⟩ := convertCsvLineToValue_ok env hb hvt hfields row
      columnNames hlen
    obtain ⟨values, hrest⟩ := ih (fun r hr => hcov r (List.mem_cons_of_mem _ hr))
    refine ⟨v :: values, ?_⟩
    unfold readCsvSliceLoop
    rw [hv]
    simp only []
    rw [hrest]

theorem readCsvObjectLoop_ok (env : StructEnv) {opt : CsvOption}
    (hb : ConvertersBenign opt) (n : Nat)
    (hfields : ∀ fd ∈ structFields env n, tyNoPanicFuel env 8 fd.2 = true)
    (hnc : opt.convertersByColumnName = [])
    (aliasNames : List (GoStr × GoStr)) :
    ∀ dataRows (flds : List (GoStr × Value)), structFieldsOk env opt n flds →
      (∀ row ∈ dataRows, 2 ≤ row.length) →
      ∃ flds',
        readCsvObjectLoop env opt n aliasNames flds dataRows =
          RunResult.ok flds' := by
  intro dataRows
  induction dataRows with
  | nil => intro flds _ _; exact ⟨flds, rfl⟩
  | cons row rest ih =>
    intro flds hok hcov
    have hlen : 2 ≤ row.length := hcov row (List.mem_cons_self _ _)
    obtain ⟨c0, h0⟩ : ∃ c0, row.get? 0 = some c0 := by
      cases hg : row.get? 0 with
      | none =>
        rw [List.get?_eq_none] at hg
        omega
      | some c0 => exact ⟨c0, rfl⟩
    obtain ⟨c1, h1⟩ : ∃ c1, row.get? 1 = some c1 := by
      cases hg : row.get? 1 with
      | none =>
        rw [List.get?_eq_none] at hg
        omega
      | some c1 => exact ⟨c1, rfl⟩
    obtain ⟨flds', hstep, hok'⟩ := populateNamedField_some env hb n hfields
      (Value.vPtr (Value.vStruct flds)) flds
      (if ((structFields env n).lookup c0).isSome then c0
       else
         match aliasNames.lookup c0 with
         | some realFieldName => realFieldName
         | none => c0) c0 c1 hok (Or.inr hnc)
    obtain ⟨flds2, hrest⟩ := ih flds' hok'
      (fun r hr => hcov r (List.mem_cons_of_mem _ hr))
    refine ⟨flds2, ?_⟩
    unfold readCsvObjectLoop
    rw [h0, h1]
    simp only []
    rw [hstep]
    simp only []
    exact hrest

theorem readMap_isErr_iff (env : StructEnv) (rows : List (List GoStr))
    (keyType valueType : Ty) (opt : CsvOption) :
    (ReadCsvFromDataMap env rows keyType valueType (some opt)).isErr ↔
      structuralErr rows opt := by
  by_cases h1 : rows.length = 0
  · simp only [ReadCsvFromDataMap, Option.getD_some, if_pos h1]
    exact ⟨fun _ => Or.inl h1, fun _ => trivial⟩
  · by_cases h2 : (rows.length : Int) ≤ opt.ColumnNameRowIndex
    · simp only [ReadCsvFromDataMap, Option.getD_some, if_neg h1, if_pos h2]
      exact ⟨fun _ => Or.inr (Or.inl h2), fun _ => trivial⟩
    · by_cases h3 : opt.ColumnNameRowIndex < 0
      · simp only [ReadCsvFromDataMap, Option.getD_some, if_neg h1, if_neg h2,
          if_pos h3]
        constructor
        · intro h
          exact h.elim
        · intro hs
          rcases hs with h | h | ⟨h0, _⟩ | ⟨h0, _, _⟩
          · exact absurd h h1
          · exact absurd h h2
          · exact absurd h3 (by omega)
          · exact absurd h3 (by omega)
      · by_cases h4 : (rows.getD opt.ColumnNameRowIndex.toNat []).length = 0
        · simp only [ReadCsvFromDataMap, Option.getD_some, if_neg h1, if_neg h2,
            if_neg h3, if_pos h4]
          exact ⟨fun _ => Or.inr (Or.inr (Or.inl ⟨le_of_not_lt h3, h4⟩)),
            fun _ => trivial⟩
        · by_cases h5 : opt.DataBeginRowIndex < 1
          · simp only [ReadCsvFromDataMap, Option.getD_some, if_neg h1,
              if_neg h2, if_neg h3, if_neg h4, if_pos h5]
            exact ⟨fun _ => Or.inr (Or.inr (Or.inr
              ⟨le_of_not_lt h3, h4, h5⟩)), fun _ => trivial⟩
          · simp only [ReadCsvFromDataMap, Option.getD_some, if_neg h1,
              if_neg h2, if_neg h3, if_neg h4, if_neg h5]
            constructor
            · intro h
              exact absurd h (readCsvMapLoop_ne_err env opt keyType valueType
                _ _)
            · intro hs
              rcases hs with h | h | ⟨_, h⟩ | ⟨_, _, h⟩
              · exact absurd h h1
              · exact absurd h h2
              · exact absurd h h4
              · exact absurd h h5

theorem readSlice_isErr_iff (env : StructEnv) (rows : List (List GoStr))
    (valueType : Ty) (opt : CsvOption) :
    (ReadCsvFromDataSlice env rows valueType (some opt)).isErr ↔
      structuralErr rows opt := by
  by_cases h1 : rows.length = 0
  · simp only [ReadCsvFromDataSlice, Option.getD_some, if_pos h1]
    exact ⟨fun _ => Or.inl h1, fun _ => trivial⟩
  · by_cases h2 : (rows.length : Int) ≤ opt.ColumnNameRowIndex
    · simp only [ReadCsvFromDataSlice, Option.getD_some, if_neg h1, if_pos h2]
      exact ⟨fun _ => Or.inr (Or.inl h2), fun _ => trivial⟩
    · by_cases h3 : opt.ColumnNameRowIndex < 0
      · simp only [ReadCsvFromDataSlice, Option.getD_some, if_neg h1, if_neg h2,
          if_pos h3]
        constructor
        · intro h
          exact h.elim
        · intro hs
          rcases hs with h | h | ⟨h0, _⟩ | ⟨h0, _, _⟩
          · exact absurd h h1
          · exact absurd h h2
          · exact absurd h3 (by omega)
          · exact absurd h3 (by omega)
      · by_cases h4 : (rows.getD opt.ColumnNameRowIndex.toNat []).length = 0
        · simp only [ReadCsvFromDataSlice, Option.getD_some, if_neg h1,
            if_neg h2, if_neg h3, if_pos h4]
          exact ⟨fun _ => Or.inr (Or.inr (Or.inl ⟨le_of_not_lt h3, h4⟩)),
            fun _ => trivial⟩
        · by_cases h5 : opt.DataBeginRowIndex < 1
          · simp only [ReadCsvFromDataSlice, Option.getD_some, if_neg h1,
              if_neg h2, if_neg h3, if_neg h4, if_pos h5]
            exact ⟨fun _ => Or.inr (Or.inr (Or.inr
              ⟨le_of_not_lt h3, h4, h5⟩)), fun _ => trivial⟩
          · simp only [ReadCsvFromDataSlice, Option.getD_some, if_neg h1,
              if_neg h2, if_neg h3, if_neg h4, if_neg h5]
            constructor
            · intro h
              exact absurd h (readCsvSliceLoop_ne_err env opt valueType _ _)
            · intro hs
              rcases hs with h | h | ⟨_, h⟩ | ⟨_, _, h⟩
              · exact absurd h h1
              · exact absurd h h2
              · exact absurd h h4
              · exact absurd h h5

theorem readObject_isErr_iff (env : StructEnv) (rows : List (List GoStr))
    (vType : Ty) (v : Value) (opt : CsvOption)
    (aliasNames : List (GoStr × GoStr)) :
    (ReadCsvFromDataObject env rows vType v (some opt) aliasNames).isErr ↔
      structuralErrObject rows opt vType := by
  by_cases h1 : rows.length = 0
  · simp only [ReadCsvFromDataObject, Option.getD_some, if_pos h1]
    exact ⟨fun _ => Or.inl h1, fun _ => trivial⟩
  · by_cases h2 : (rows.headD []).length < 2
    · simp only [ReadCsvFromDataObject, Option.getD_some, if_neg h1, if_pos h2]
      exact ⟨fun _ => Or.inr (Or.inl h2), fun _ => trivial⟩
    · by_cases h3 : opt.ObjectDataBeginRowIndex < 1
      · simp only [ReadCsvFromDataObject, Option.getD_some, if_neg h1,
          if_neg h2, if_pos h3]
        exact ⟨fun _ => Or.inr (Or.inr (Or.inl h3)), fun _ => trivial⟩
      · simp only [ReadCsvFromDataObject, Option.getD_some, if_neg h1,
          if_neg h2, if_neg h3]
        cases vType with
        | tPtr elemTy =>
          constructor
          · intro h
            exfalso
            simp only [] at h
            split at h
            · split at h
              · exact h
              · exact h
            · split at h
              · exact h
              · exact h
          · intro hs
            rcases hs with h | h | h | h
            · exact absurd h h1
            · exact absurd h h2
            · exact absurd h h3
            · exact absurd rfl (h elemTy)
        | tInt =>
          exact ⟨fun _ => Or.inr (Or.inr (Or.inr (fun t ht =>
            Ty.noConfusion ht))), fun _ => trivial⟩
        | tUint =>
          exact ⟨fun _ => Or.inr (Or.inr (Or.inr (fun t ht =>
            Ty.noConfusion ht))), fun _ => trivial⟩
        | tFloat32 =>
          exact ⟨fun _ => Or.inr (Or.inr (Or.inr (fun t ht =>
            Ty.noConfusion ht))), fun _ => trivial⟩
        | tFloat64 =>
          exact ⟨fun _ => Or.inr (Or.inr (Or.inr (fun t ht =>
            Ty.noConfusion ht))), fun _ => trivial⟩
        | tString =>
          exact ⟨fun _ => Or.inr (Or.inr (Or.inr (fun t ht =>
            Ty.noConfusion ht))), fun _ => trivial⟩
        | tBool =>
          exact ⟨fun _ => Or.inr (Or.inr (Or.inr (fun t ht =>
            Ty.noConfusion ht))), fun _ => trivial⟩
        | tStructN n =>
          exact ⟨fun _ => Or.inr (Or.inr (Or.inr (fun t ht =>
            Ty.noConfusion ht))), fun _ => trivial⟩
        | tSlice e =>
          exact ⟨fun _ => Or.inr (Or.inr (Or.inr (fun t ht =>
            Ty.noConfusion ht))), fun _ => trivial⟩
        | tMap k w =>
          exact ⟨fun _ => Or.inr (Or.inr (Or.inr (fun t ht =>
            Ty.noConfusion ht))), fun _ => trivial⟩
        | tOther =>
          exact ⟨fun _ => Or.inr (Or.inr (Or.inr (fun t ht =>
            Ty.noConfusion ht))), fun _ => trivial⟩

theorem readMap_ok (env : StructEnv) {opt : CsvOption}
    (hb : ConvertersBenign opt) {keyType valueType : Ty} {n : Nat}
    (hvt : valueType = Ty.tStructN n ∨ valueType = Ty.tPtr (Ty.tStructN n))
    (hfields : ∀ fd ∈ structFields env n, tyNoPanicFuel env 8 fd.2 = true)
    (hkt : realTypeTotal keyType = true)
    (rows : List (List GoStr))
    (hns : ¬ structuralErr rows opt)
    (h0 : 0 ≤ opt.ColumnNameRowIndex)
    (hcov : ∀ row ∈ rows.drop opt.DataBeginRowIndex.toNat,
      (rows.getD opt.ColumnNameRowIndex.toNat []).length ≤ row.length) :
    ∃ entries, ReadCsvFromDataMap env rows keyType valueType (some opt) =
      RunResult.ok entries := by
  have h1 : ¬ rows.length = 0 := fun h => hns (Or.inl h)
  have h2 : ¬ (rows.length : Int) ≤ opt.ColumnNameRowIndex :=
    fun h => hns (Or.inr (Or.inl h))
  have h3 : ¬ opt.ColumnNameRowIndex < 0 := not_lt.mpr h0
  have h4 : ¬ (rows.getD opt.ColumnNameRowIndex.toNat []).length = 0 :=
    fun h => hns (Or.inr (Or.inr (Or.inl ⟨h0, h⟩)))
  have h5 : ¬ opt.DataBeginRowIndex < 1 :=
    fun h => hns (Or.inr (Or.inr (Or.inr ⟨h0, h4, h⟩)))
  have hcn : rows.getD opt.ColumnNameRowIndex.toNat [] ≠ [] := by
    intro h
    rw [h] at h4
    exact h4 rfl
  obtain ⟨entries, hloop⟩ := readCsvMapLoop_ok env hb hvt hfields hkt _ hcn
    (rows.drop opt.DataBeginRowIndex.toNat) hcov
  refine ⟨entries, ?_⟩
  simp only [ReadCsvFromDataMap, Option.getD_some, if_neg h1, if_neg h2,
    if_neg h3, if_neg h4, if_neg h5]
  exact hloop

theorem readSlice_ok (env : StructEnv) {opt : CsvOption}
    (hb : ConvertersBenign opt) {valueType : Ty} {n : Nat}
    (hvt : valueType = Ty.tStructN n ∨ valueType = Ty.tPtr (Ty.tStructN n))
    (hfields : ∀ fd ∈ structFields env n, tyNoPanicFuel env 8 fd.2 = true)
    (rows : List (List GoStr))
    (hns : ¬ structuralErr rows opt)
    (h0 : 0 ≤ opt.ColumnNameRowIndex)
    (hcov : ∀ row ∈ rows.drop opt.DataBeginRowIndex.toNat,
      (rows.getD opt.ColumnNameRowIndex.toNat []).length ≤ row.length) :
    ∃ values, ReadCsvFromDataSlice env rows valueType (some opt) =
      RunResult.ok values := by
  have h1 : ¬ rows.length = 0 := fun h => hns (Or.inl h)
  have h2 : ¬ (rows.length : Int) ≤ opt.ColumnNameRowIndex :=
    fun h => hns (Or.inr (Or.inl h))
  have h3 : ¬ opt.ColumnNameRowIndex < 0 := not_lt.mpr h0
  have h4 : ¬ (rows.getD opt.ColumnNameRowIndex.toNat []).length = 0 :=
    fun h => hns (Or.inr (Or.inr (Or.inl ⟨h0, h⟩)))
  have h5 : ¬ opt.DataBeginRowIndex < 1 :=
    fun h => hns (Or.inr (Or.inr (Or.inr ⟨h0, h4, h⟩)))
  obtain ⟨values, hloop⟩ := readCsvSliceLoop_ok env hb hvt hfields _
    (rows.drop opt.DataBeginRowIndex.toNat) hcov
  refine ⟨values, ?_⟩
  simp only [ReadCsvFromDataSlice, Option.getD_some, if_neg h1, if_neg h2,
    if_neg h3, if_neg h4, if_neg h5]
  exact hloop

theorem readObject_ok (env : StructEnv) {opt : CsvOption}
    (hb : ConvertersBenign opt) (n : Nat)
    (hfields : ∀ fd ∈ structFields env n, tyNoPanicFuel env 8 fd.2 = true)
    (hnc : opt.convertersByColumnName = [])
    (aliasNames : List (GoStr × GoStr)) (rows : List (List GoStr))
    (flds0 : List (GoStr × Value))
    (hns : ¬ structuralErrObject rows opt (Ty.tPtr (Ty.tStructN n)))
    (hok : structFieldsOk env opt n flds0)
    (hcov : ∀ row ∈ rows.drop opt.ObjectDataBeginRowIndex.toNat,
      2 ≤ row.length) :
    ∃ res, ReadCsvFromDataObject env rows (Ty.tPtr (Ty.tStructN n))
      (Value.vPtr (Value.vStruct flds0)) (some opt) aliasNames =
        RunResult.ok res := by
  have h1 : ¬ rows.length = 0 := fun h => hns (Or.inl h)
  have h2 : ¬ (rows.headD []).length < 2 := fun h => hns (Or.inr (Or.inl h))
  have h3 : ¬ opt.ObjectDataBeginRowIndex < 1 :=
    fun h => hns (Or.inr (Or.inr (Or.inl h)))
  obtain ⟨flds', hloop⟩ := readCsvObjectLoop_ok env hb n hfields hnc aliasNames
    (rows.drop opt.ObjectDataBeginRowIndex.toNat) flds0 hok hcov
  refine ⟨Value.vStruct flds', ?_⟩
  simp only [ReadCsvFromDataObject, Option.getD_some, if_neg h1, if_neg h2,
    if_neg h3]
  rw [hloop]

theorem readMap_opt_norm (env : StructEnv) (rows : List (List GoStr))
    (keyType valueType : Ty) :
    ∀ opt0 : Option CsvOption,
      ReadCsvFromDataMap env rows keyType valueType opt0 =
        ReadCsvFromDataMap env rows keyType valueType
          (some (opt0.getD DefaultOption))
  | none => rfl
  | some _ => rfl

theorem readSlice_opt_norm (env : StructEnv) (rows : List (List GoStr))
    (valueType : Ty) :
    ∀ opt0 : Option CsvOption,
      ReadCsvFromDataSlice env rows valueType opt0 =
        ReadCsvFromDataSlice env rows valueType
          (some (opt0.getD DefaultOption))
  | none => rfl
  | some _ => rfl

theorem readObject_opt_norm (env : StructEnv) (rows : List (List GoStr))
    (vType : Ty) (v : Value) (aliasNames : List (GoStr × GoStr)) :
    ∀ opt0 : Option CsvOption,
      ReadCsvFromDataObject env rows vType v opt0 aliasNames =
        ReadCsvFromDataObject env rows vType v
          (some (opt0.getD DefaultOption)) aliasNames
  | none => rfl
  | some _ => rfl

/-- C7 (amended): each reader returns a non-nil error exactly when its
structural condition holds — for the map and slice readers an empty row set,
no header row at the configured column-name row index, a header row with
zero columns, or a data-begin row index below 1; for the object reader an
empty row set, a first row with fewer than two cells, an object-data begin
index below 1, or a non-pointer destination — and no field-level failure
ever causes a non-nil error return (a structurally sound input either
succeeds or panics, never errs). -/
theorem claim7_amended_error_taxonomy (env : StructEnv)
    (rows : List (List GoStr)) (keyType valueType vType : Ty) (v : Value)
    (opt0 : Option CsvOption) (aliasNames : List (GoStr × GoStr)) :
    ((ReadCsvFromDataMap env rows keyType valueType opt0).isErr ↔
      structuralErr rows (opt0.getD DefaultOption)) ∧
    ((ReadCsvFromDataSlice env rows valueType opt0).isErr ↔
      structuralErr rows (opt0.getD DefaultOption)) ∧
    ((ReadCsvFromDataObject env rows vType v opt0 aliasNames).isErr ↔
      structuralErrObject rows (opt0.getD DefaultOption) vType) := by
  refine ⟨?_, ?_, ?_⟩
  · rw [readMap_opt_norm]
    exact readMap_isErr_iff env rows keyType valueType _
  · rw [readSlice_opt_norm]
    exact readSlice_isErr_iff env rows valueType _
  · rw [readObject_opt_norm]
    exact readObject_isErr_iff env rows vType v _ aliasNames

/-- C7 (counterexample): a row set satisfying every structural condition of
the map reader — two rows, a one-column header at index 0, data beginning at
row 1 — on which `ReadCsvFromDataMap` panics (the data row is empty, so
reading its first cell as the map key indexes out of range) instead of
returning nil. -/
theorem claim7_counterexample_structural_ok_but_panics :
    ¬ structuralErr [[gs ("A")], []] DefaultOption ∧
    ReadCsvFromDataMap [[]] [[gs ("A")], []] Ty.tInt (Ty.tStructN 0) none =
      RunResult.panicked := by
  constructor
  · intro hs
    rcases hs with h | h | ⟨_, h⟩ | ⟨_, _, h⟩
    · exact absurd h (by decide)
    · exact absurd h (by decide)
    · exact absurd h (by decide)
    · exact absurd h (by decide)
  · rfl

/-- C9: when the header row is present and non-empty, the begin indices are
well configured, the registered converters are benign and every data row has
at least as many cells as the header has columns (in map mode the header is
non-empty, so each data row is in particular non-empty and its first cell
serves as the map key), every row indexing operation of the map and slice
readers is in bounds and both return nil; and on a concrete input violating
the width precondition — header `A,B`, single data row `x` — the slice
reader panics with an index out of range instead of returning an error. -/
theorem claim9_row_width_safety (env : StructEnv) (opt : CsvOption)
    (rows : List (List GoStr)) (keyType valueType : Ty) (n : Nat)
    (hb : ConvertersBenign opt)
    (hvt : valueType = Ty.tStructN n ∨ valueType = Ty.tPtr (Ty.tStructN n))
    (hfields : ∀ fd ∈ structFields env n, tyNoPanicFuel env 8 fd.2 = true)
    (hkt : realTypeTotal keyType = true)
    (hns : ¬ structuralErr rows opt)
    (h0 : 0 ≤ opt.ColumnNameRowIndex)
    (hcov : ∀ row ∈ rows.drop opt.DataBeginRowIndex.toNat,
      (rows.getD opt.ColumnNameRowIndex.toNat []).length ≤ row.length) :
    (∃ entries, ReadCsvFromDataMap env rows keyType valueType (some opt) =
      RunResult.ok entries) ∧
    (∃ values, ReadCsvFromDataSlice env rows valueType (some opt) =
      RunResult.ok values) ∧
    ReadCsvFromDataSlice [[]] [[gs ("A"), gs ("B")], [gs ("x")]]
      (Ty.tStructN 0) none = RunResult.panicked := by
  refine ⟨readMap_ok env hb hvt hfields hkt rows hns h0 hcov,
    readSlice_ok env hb hvt hfields rows hns h0 hcov, ?_⟩
  rfl

theorem claim9_row_width_safety_witness :
    (∃ entries, ReadCsvFromDataMap [[]] [[gs ("A")], [gs ("x")]] Ty.tString
      (Ty.tStructN 0) (some DefaultOption) = RunResult.ok entries) ∧
    (∃ values, ReadCsvFromDataSlice [[]] [[gs ("A")], [gs ("x")]]
      (Ty.tStructN 0) (some DefaultOption) = RunResult.ok values) ∧
    ReadCsvFromDataSlice [[]] [[gs ("A"), gs ("B")], [gs ("x")]]
      (Ty.tStructN 0) none = RunResult.panicked :=
  claim9_row_width_safety [[]] DefaultOption [[gs ("A")], [gs ("x")]]
    Ty.tString (Ty.tStructN 0) 0
    ⟨fun p hp => absurd hp (List.not_mem_nil p),
     fun p hp => absurd hp (List.not_mem_nil p)⟩
    (Or.inl rfl)
    (fun fd hfd => absurd hfd (List.not_mem_nil fd))
    rfl
    (by intro hs
        rcases hs with h | h | ⟨_, h⟩ | ⟨_, _, h⟩
        · exact absurd h (by decide)
        · exact absurd h (by decide)
        · exact absurd h (by decide)
        · exact absurd h (by decide))
    (by decide)
    (by decide)
